import Mathlib

/-!
Verification development for the `selfdriving` TP-space RRT* planner and its
two PTG families (DiffDrive_C and HolonomicBlend).

The C++ sources are shallowly embedded over the real numbers: every `double`
becomes an `ℝ` (float rounding is not modelled), fallible queries become
`Option`/`Except`, and code that mutates member state (the PTG dynamic state,
the local-obstacle cache, the motion tree) is embedded with the state passed
explicitly.  Functions keep their C++ names where Lean allows it.

Code of the repository that lives outside the provided sources (the MRPT base
classes `alpha2index`/`index2alpha`/`sign`, the motion-tree container, the
TP-space distance metric) is modelled from the specification; each such
definition carries a doc comment saying so.
-/

open scoped Classical

noncomputable section

namespace SelfDriving

/-! ## Elementary MRPT math helpers -/

/-- MRPT `mrpt::sign` (bits_math.h): returns `-1` for negatives and `+1`
otherwise; in particular `sign 0 = 1`.  (MRPT has a separate `signWithZero`
for the 0 ↦ 0 convention, which proves that plain `sign` maps 0 to +1.) -/
def mrptSign (x : ℝ) : ℝ :=
  if x < 0 then -1 else 1

/-- MRPT `mrpt::signWithZero`: 0 for zero, else `mrptSign`. -/
def signWithZero (x : ℝ) : ℝ :=
  if x = 0 then 0 else mrptSign x

/-- Truncation toward zero, the rounding used by the C `fmod`. -/
def truncR (x : ℝ) : ℤ :=
  if 0 ≤ x then ⌊x⌋ else ⌈x⌉

/-- MRPT `mrpt::round` = `std::lround`: round half away from zero. -/
def roundR (x : ℝ) : ℤ :=
  if 0 ≤ x then ⌊x + 1 / 2⌋ else ⌈x - 1 / 2⌉

/-- MRPT `mrpt::math::wrapTo2Pi`: `fmod` by `2π`, adding `2π` when the input
was negative; result lies in `[0, 2π)` for inputs that are not negative
multiples of `2π` (the only inputs it ever receives here). -/
def wrapTo2Pi (a : ℝ) : ℝ :=
  let r := a - (2 * Real.pi) * truncR (a / (2 * Real.pi))
  if a < 0 then r + 2 * Real.pi else r

/-- MRPT `mrpt::math::wrapToPi`: shift into `[-π, π)` via `wrapTo2Pi`. -/
def wrapToPi (a : ℝ) : ℝ :=
  wrapTo2Pi (a + Real.pi) - Real.pi

/-- The C standard-library `atan2(y, x)` over the reals (signed zeros do not
exist in `ℝ`, so `atan2 0 0 = 0`). -/
def atan2 (y x : ℝ) : ℝ :=
  if 0 < x then Real.arctan (y / x)
  else if x < 0 then
    (if 0 ≤ y then Real.arctan (y / x) + Real.pi
     else Real.arctan (y / x) - Real.pi)
  else
    (if 0 < y then Real.pi / 2 else if y < 0 then -(Real.pi / 2) else 0)

/-! ## Geometry types (`mrpt::math::TPose2D`, `TTwist2D`, `TPoint2D`) -/

/-- SE(2) pose `(x, y, phi)`. -/
structure TPose2D where
  x : ℝ
  y : ℝ
  phi : ℝ

/-- 2D point. -/
structure TPoint2D where
  x : ℝ
  y : ℝ

/-- 2D twist `(vx, vy, omega)`. -/
structure TTwist2D where
  vx : ℝ
  vy : ℝ
  omega : ℝ

/-- `mrpt::math::TPose2D::operator+`: SE(2) pose composition, with the
resulting heading wrapped by `wrapToPi`. -/
def composePose (a b : TPose2D) : TPose2D :=
  { x := a.x + b.x * Real.cos a.phi - b.y * Real.sin a.phi
    y := a.y + b.x * Real.sin a.phi + b.y * Real.cos a.phi
    phi := wrapToPi (a.phi + b.phi) }

/-- `mrpt::poses::CPose2D` unary minus (pose inversion).  The heading
normalization performed by `CPose2D` is omitted: the inverse pose is only
ever consumed through `composePoint`, which reads the heading through
`cos`/`sin` and so cannot observe a `2π` shift. -/
def negPose (p : TPose2D) : TPose2D :=
  { x := -p.x * Real.cos p.phi - p.y * Real.sin p.phi
    y := p.x * Real.sin p.phi - p.y * Real.cos p.phi
    phi := -p.phi }

/-- `mrpt::poses::CPose2D::composePoint`: apply a pose to a point. -/
def composePoint (q : TPose2D) (gx gy : ℝ) : TPoint2D :=
  { x := q.x + gx * Real.cos q.phi - gy * Real.sin q.phi
    y := q.y + gx * Real.sin q.phi + gy * Real.cos q.phi }

/-- `mrpt::math::TTwist2D::rotate`: rotate the linear part, keep `omega`. -/
def rotateTwist (t : TTwist2D) (ang : ℝ) : TTwist2D :=
  { vx := t.vx * Real.cos ang - t.vy * Real.sin ang
    vy := t.vx * Real.sin ang + t.vy * Real.cos ang
    omega := t.omega }

/-- Transform a world point into the local frame of `pose` directly (the
specification's description of the local-obstacle view). -/
def worldToLocal (pose : TPose2D) (g : TPoint2D) : TPoint2D :=
  { x := Real.cos pose.phi * (g.x - pose.x) + Real.sin pose.phi * (g.y - pose.y)
    y := -Real.sin pose.phi * (g.x - pose.x) + Real.cos pose.phi * (g.y - pose.y) }

/-! ## PTG index/direction discretization -/

/-- Modelled from the spec: `alpha2index(α) → k` of the PTG interface
(`CParameterizedTrajectoryGenerator`, a base class not under `src/`): the
uniform discretization of the wrapped direction into `N` indices, rounded
and clamped into `[0, N)`. -/
def alpha2index (N : ℕ) (alpha : ℝ) : ℕ :=
  let a := wrapToPi alpha
  let k : ℤ := roundR (0.5 * ((N : ℝ) * (1 + a / Real.pi) - 1))
  if k < 0 then 0 else if (N : ℤ) ≤ k then N - 1 else k.toNat

/-- Modelled from the spec: `index2alpha(k) → α` of the PTG interface
(uniform discretization, base class not under `src/`): the direction of the
`k`-th trajectory among `N`. -/
def index2alpha (N : ℕ) (k : ℕ) : ℝ :=
  Real.pi * (-1 + 2 * ((k : ℝ) + 0.5) / (N : ℝ))

/-- `alpha2index` always lands inside `[0, N)` when `N ≥ 1` (this is the
clamping at the end of the discretization). -/
theorem alpha2index_lt (N : ℕ) (hN : 1 ≤ N) (alpha : ℝ) :
    alpha2index N alpha < N := by
  unfold alpha2index
  set k : ℤ := roundR (0.5 * ((N : ℝ) * (1 + wrapToPi alpha / Real.pi) - 1)) with hk
  by_cases h1 : k < 0
  · simp [h1]; omega
  · by_cases h2 : (N : ℤ) ≤ k
    · simp [h1, h2]; omega
    · simp [h1, h2]; omega

/-! ## Evaluation helpers for the wrapped angles -/

theorem truncR_eq_zero (x : ℝ) (h0 : 0 ≤ x) (h1 : x < 1) : truncR x = 0 := by
  unfold truncR
  rw [if_pos h0]
  exact Int.floor_eq_zero_iff.2 ⟨h0, h1⟩

theorem wrapTo2Pi_eq_self (a : ℝ) (h0 : 0 ≤ a) (h1 : a < 2 * Real.pi) :
    wrapTo2Pi a = a := by
  unfold wrapTo2Pi
  have h2 : (0:ℝ) < 2 * Real.pi := by positivity
  have ht : truncR (a / (2 * Real.pi)) = 0 := by
    apply truncR_eq_zero
    · positivity
    · rw [div_lt_one h2]; exact h1
  rw [ht, if_neg (not_lt.2 h0)]
  simp

theorem wrapToPi_zero : wrapToPi 0 = 0 := by
  unfold wrapToPi
  rw [zero_add, wrapTo2Pi_eq_self Real.pi Real.pi_pos.le (by nlinarith [Real.pi_pos])]
  ring

theorem atan2_zero_neg (x : ℝ) (hx : x < 0) : atan2 0 x = Real.pi := by
  unfold atan2
  rw [if_neg (by linarith), if_pos hx, if_pos le_rfl]
  simp

theorem mrptSign_nonneg (x : ℝ) (h : 0 ≤ x) : mrptSign x = 1 :=
  if_neg (not_lt.2 h)

/-! ## DiffDrive_C PTG (`src/libselfdriving/src/ptgs/DiffDrive_C.cpp`) -/

/-- Parameters of a `DiffDrive_C` PTG instance (from the PTG base classes:
`K` is the generation parameter of `DiffDrive_C`, the rest come from
`CParameterizedTrajectoryGenerator`). -/
structure DiffDriveCParams where
  K : ℝ
  V_MAX : ℝ
  W_MAX : ℝ
  turningRadiusReference : ℝ
  refDistance : ℝ
  alphaValuesCount : ℕ

/-- Result triple of `inverseMap_WS2TP`: out-parameters `k_out`, `d_out` and
the returned `is_exact` flag. -/
structure WS2TPResult where
  k_out : ℕ
  d_out : ℝ
  is_exact : Bool

namespace DiffDrive_C

/-- `DiffDrive_C::inverseMap_WS2TP` (DiffDrive_C.cpp lines 88-154), embedded
statement by statement.  Note the assignment order of the source: `d_out` is
computed from `fabs(R)` BEFORE `R` is clamped to `Rmin`, while the
`alpha2index` argument uses the clamped `R`. -/
def inverseMap_WS2TP (p : DiffDriveCParams) (x y : ℝ) : WS2TPResult :=
  if y = 0 then
    -- the `else` branch of the source's `if (y != 0)`
    if mrptSign x = mrptSign p.K then
      { k_out := alpha2index p.alphaValuesCount 0
        d_out := x / p.refDistance
        is_exact := true }
    else
      { k_out := p.alphaValuesCount - 1
        d_out := 1000 / p.refDistance
        is_exact := false }
  else
    let R := (x * x + y * y) / (2 * y)
    let Rmin := |p.V_MAX / p.W_MAX|
    let theta0 :=
      if 0 < p.K then
        (if 0 < y then atan2 x (|R| - y) else atan2 x (y + |R|))
      else
        (if 0 < y then atan2 (-x) (|R| - y) else atan2 (-x) (y + |R|))
    let theta := wrapTo2Pi theta0
    let d1 := theta * (|R| + p.turningRadiusReference)
    let Rcl := if |R| < Rmin then Rmin * mrptSign R else R
    let isex : Bool := if |R| < Rmin then false else true
    let a := Real.pi * p.V_MAX / (p.W_MAX * Rcl)
    { k_out := alpha2index p.alphaValuesCount a
      d_out := d1 / p.refDistance
      is_exact := isex }

end DiffDrive_C

/-! ### Spec-side definitions for the DiffDrive-C inverse map

These two definitions follow the wording of the specification (§4.2) for the
`y ≠ 0` branch, to be compared against the embedded source code. -/

/-- Spec-side: the angle `θ = atan2(±x, |R| − y)` or `atan2(±x, y + |R|)`
selected by the signs of `K` and `y` (spec §4.2), with `R = (x²+y²)/(2y)`. -/
def specTheta (p : DiffDriveCParams) (x y : ℝ) : ℝ :=
  let R := (x * x + y * y) / (2 * y)
  if 0 < p.K then
    (if 0 < y then atan2 x (|R| - y) else atan2 x (y + |R|))
  else
    (if 0 < y then atan2 (-x) (|R| - y) else atan2 (-x) (y + |R|))

/-- Spec-side: `R` clamped in absolute value to `R_min = |V_max/W_max|`
(spec §4.2), keeping the sign of `R`. -/
def specClampedR (p : DiffDriveCParams) (x y : ℝ) : ℝ :=
  let R := (x * x + y * y) / (2 * y)
  let Rmin := |p.V_MAX / p.W_MAX|
  if |R| < Rmin then Rmin * mrptSign R else R

/-- Helper evaluation: with `K = +1`, `V_max = W_max = 1`, the input `(0, 1)`
runs the arc branch with `R = 1/2`, `θ = atan2(0, -1/2) = π` and a clamped
radius of `1`, so the code returns `d = π·(1/2 + turningRadiusReference)`
(normalized) together with `k = alpha2index(π)` and `exact = false`. -/
theorem inverseMap_WS2TP_unit_eval (p : DiffDriveCParams)
    (hK : p.K = 1) (hV : p.V_MAX = 1) (hW : p.W_MAX = 1) :
    DiffDrive_C.inverseMap_WS2TP p 0 1 =
      { k_out := alpha2index p.alphaValuesCount Real.pi
        d_out := Real.pi * (1 / 2 + p.turningRadiusReference) / p.refDistance
        is_exact := false } := by
  have hpi := Real.pi_pos
  unfold DiffDrive_C.inverseMap_WS2TP
  rw [if_neg (one_ne_zero)]
  simp only [hK, hV, hW]
  have e1 : ((0:ℝ) * 0 + 1 * 1) / (2 * 1) = 1 / 2 := by norm_num
  rw [e1]
  have e2 : |(1:ℝ) / 2| = 1 / 2 := abs_of_pos (by norm_num)
  have e3 : |(1:ℝ) / 1| = 1 := by rw [div_one, abs_one]
  rw [e2, e3]
  have e4 : mrptSign ((1:ℝ) / 2) = 1 := mrptSign_nonneg _ (by norm_num)
  rw [e4]
  have e5 : atan2 0 ((1:ℝ) / 2 - 1) = Real.pi := atan2_zero_neg _ (by norm_num)
  rw [if_pos one_pos, if_pos one_pos, e5]
  have e6 : wrapTo2Pi Real.pi = Real.pi :=
    wrapTo2Pi_eq_self _ hpi.le (by linarith)
  rw [e6]
  rw [if_pos (show (1:ℝ) / 2 < 1 by norm_num)]
  rw [if_pos (show (1:ℝ) / 2 < 1 by norm_num)]
  norm_num

/-- Helper evaluation: with `K ≥ 0` the input `(0, 0)` enters the `y = 0`
branch, and since MRPT's `sign(0) = +1 = sign(K)` it takes the straight-line
sub-branch, returning `k = alpha2index(0)`, `d = 0/refDistance = 0`, and
`exact = true`. -/
theorem inverseMap_WS2TP_origin_eval (p : DiffDriveCParams) (hK : 0 ≤ p.K) :
    DiffDrive_C.inverseMap_WS2TP p 0 0 =
      { k_out := alpha2index p.alphaValuesCount 0
        d_out := 0
        is_exact := true } := by
  unfold DiffDrive_C.inverseMap_WS2TP
  rw [if_pos rfl]
  rw [if_pos (by rw [mrptSign_nonneg _ le_rfl, mrptSign_nonneg _ hK])]
  simp [zero_div]

/-- Evaluation of the discretization at `α = 0` with the default 16-sector
count: `wrapToPi 0 = 0`, so `k = round(0.5·(16·1 − 1)) = round 7.5 = 8`. -/
theorem alpha2index_16_zero : alpha2index 16 0 = 8 := by
  have h1 : (0.5 : ℝ) * (((16 : ℕ) : ℝ) * (1 + 0 / Real.pi) - 1) = 15 / 2 := by
    rw [zero_div]
    norm_num
  have h2 : roundR (15 / 2 : ℝ) = 8 := by
    unfold roundR
    rw [if_pos (by norm_num)]
    exact Int.floor_eq_iff.2 (by norm_num)
  simp only [alpha2index, wrapToPi_zero, h1, h2]
  norm_num
  rfl

/-- Concrete DiffDrive-C parameter set used in the C1 counterexample:
`K = +1`, `V_max = W_max = 1`, `turningRadiusReference = 1`,
`refDistance = 1`, 16 trajectories. -/
def pC1 : DiffDriveCParams :=
  { K := 1, V_MAX := 1, W_MAX := 1, turningRadiusReference := 1
    refDistance := 1, alphaValuesCount := 16 }

/-- Concrete DiffDrive-C parameter set used in the C10 counterexample:
`K = +1`, `refDistance = 10`, 16 trajectories. -/
def pC10 : DiffDriveCParams :=
  { K := 1, V_MAX := 1, W_MAX := 1, turningRadiusReference := 1
    refDistance := 10, alphaValuesCount := 16 }

/-- C1 (counterexample): for `K = +1`, `V_max = W_max = 1`,
`turningRadiusReference = 1`, `refDistance = 1`, the input `(0, 1)` yields
`d = π·(3/2)`, which differs from the claimed `π/2·(1 + turningRadiusReference)
= π`: the code computes `d` from the pre-clamp `|R| = 1/2`, not from the
clamped radius. -/
theorem C1_counterexample :
    (DiffDrive_C.inverseMap_WS2TP pC1 0 1).d_out = Real.pi * (3 / 2) ∧
      Real.pi * (3 / 2) ≠
        Real.pi / 2 * (1 + pC1.turningRadiusReference) := by
  constructor
  · rw [inverseMap_WS2TP_unit_eval pC1 rfl rfl rfl]
    show Real.pi * (1 / 2 + pC1.turningRadiusReference) / pC1.refDistance = _
    simp only [pC1]
    ring
  · simp only [pC1]
    intro h
    nlinarith [Real.pi_pos]

/-- C1: for the `y ≠ 0` branch of `DiffDrive_C::inverseMap_WS2TP`,
`exact = false` exactly when `|R|` is clamped to `R_min = |V_max/W_max|`;
`k = alpha2index(π·V_max/(W_max·R_clamped))`; the distance is
`d = wrap2pi(θ)·(|R| + turningRadiusReference)/refDistance` where `|R|` is the
PRE-clamp radius (this is the amendment: the source computes `d_out` before
clamping `R`).  In particular for `K = +1` and `V_max = W_max = 1` the input
`(0, 1)` yields `d = π·(1/2 + turningRadiusReference)` before normalization
(not `π/2·(1 + turningRadiusReference)`) and `k = alpha2index(π)`. -/
theorem C1_theorem :
    (∀ (p : DiffDriveCParams) (x y : ℝ), y ≠ 0 →
      (((DiffDrive_C.inverseMap_WS2TP p x y).is_exact = false ↔
          |(x * x + y * y) / (2 * y)| < |p.V_MAX / p.W_MAX|) ∧
        (DiffDrive_C.inverseMap_WS2TP p x y).d_out =
          wrapTo2Pi (specTheta p x y) *
              (|(x * x + y * y) / (2 * y)| + p.turningRadiusReference) /
            p.refDistance ∧
        (DiffDrive_C.inverseMap_WS2TP p x y).k_out =
          alpha2index p.alphaValuesCount
            (Real.pi * p.V_MAX / (p.W_MAX * specClampedR p x y)))) ∧
      (∀ p : DiffDriveCParams, p.K = 1 → p.V_MAX = 1 → p.W_MAX = 1 →
        DiffDrive_C.inverseMap_WS2TP p 0 1 =
          { k_out := alpha2index p.alphaValuesCount Real.pi
            d_out := Real.pi * (1 / 2 + p.turningRadiusReference) / p.refDistance
            is_exact := false }) := by
  constructor
  · intro p x y hy
    unfold DiffDrive_C.inverseMap_WS2TP specTheta specClampedR
    rw [if_neg hy]
    refine ⟨?_, rfl, rfl⟩
    by_cases h : |(x * x + y * y) / (2 * y)| < |p.V_MAX / p.W_MAX|
    · simp [h]
    · simp [h]
  · intro p hK hV hW
    exact inverseMap_WS2TP_unit_eval p hK hV hW

/-- C1 (witness): the amended claim evaluated at the concrete parameter set
`pC1`, both for the general `y ≠ 0` description (at `(x, y) = (2, 1)`) and
for the `(0, 1)` unit. -/
theorem C1_witness :
    DiffDrive_C.inverseMap_WS2TP pC1 0 1 =
      { k_out := alpha2index 16 Real.pi
        d_out := Real.pi * (1 / 2 + 1) / 1
        is_exact := false } ∧
      ((DiffDrive_C.inverseMap_WS2TP pC1 2 1).is_exact = false ↔
        |((2:ℝ) * 2 + 1 * 1) / (2 * 1)| < |(1:ℝ) / 1|) := by
  constructor
  · have h := C1_theorem.2 pC1 rfl rfl rfl
    simpa [pC1] using h
  · have h := (C1_theorem.1 pC1 2 1 (by norm_num)).1
    simpa [pC1] using h

/-- C10 (counterexample): at the input `(0, 0)` with `K = +1`, MRPT's
`sign(0) = +1 = sign(K)`, so the code takes the straight-line branch (not the
fallback the claim describes): it returns `exact = true` (claimed `false`),
`d = 0` (claimed `1e3/refDistance = 100`) and `k = 8 = alpha2index(0)`
(claimed `alphaValuesCount − 1 = 15`). -/
theorem C10_counterexample :
    (DiffDrive_C.inverseMap_WS2TP pC10 0 0).is_exact = true ∧
      (DiffDrive_C.inverseMap_WS2TP pC10 0 0).d_out = 0 ∧
      (DiffDrive_C.inverseMap_WS2TP pC10 0 0).k_out = 8 ∧
      (8 : ℕ) ≠ pC10.alphaValuesCount - 1 := by
  have h := inverseMap_WS2TP_origin_eval pC10 (by norm_num [pC10])
  refine ⟨?_, ?_, ?_, ?_⟩
  · rw [h]
  · rw [h]
  · rw [h]
    show alpha2index pC10.alphaValuesCount 0 = 8
    simp only [pC10]
    exact alpha2index_16_zero
  · simp [pC10]

/-- C10 (amended): for every input `(x, y)` and every parameter set with at
least one trajectory, `DiffDrive_C::inverseMap_WS2TP` returns
`k_out < alphaValuesCount` (the terminal assertions never fire); and for the
input `(0, 0)` with `K ≥ 0`, since MRPT's `sign(0) = +1` equals `sign(K)`,
the STRAIGHT-LINE branch is taken, returning `k_out = alpha2index(0)`,
`d_out = 0` and `exact = true` (the fallback branch is reached only when
`sign(x) ≠ sign(K)`, e.g. for `(0, 0)` with `K = −1`). -/
theorem C10_theorem :
    (∀ (p : DiffDriveCParams) (x y : ℝ), 1 ≤ p.alphaValuesCount →
      (DiffDrive_C.inverseMap_WS2TP p x y).k_out < p.alphaValuesCount) ∧
      (∀ p : DiffDriveCParams, 0 ≤ p.K →
        DiffDrive_C.inverseMap_WS2TP p 0 0 =
          { k_out := alpha2index p.alphaValuesCount 0
            d_out := 0
            is_exact := true }) := by
  constructor
  · intro p x y hN
    unfold DiffDrive_C.inverseMap_WS2TP
    split_ifs <;>
      first
        | exact alpha2index_lt _ hN _
        | exact Nat.sub_lt (by omega) (by omega)
  · intro p hK
    exact inverseMap_WS2TP_origin_eval p hK

/-- C10 (witness): the amended claim evaluated at the concrete parameter set
`pC10` — the range bound at `(3, 7)` and the `(0, 0)` straight-line result. -/
theorem C10_witness :
    (DiffDrive_C.inverseMap_WS2TP pC10 3 7).k_out < 16 ∧
      DiffDrive_C.inverseMap_WS2TP pC10 0 0 =
        { k_out := alpha2index 16 0, d_out := 0, is_exact := true } := by
  constructor
  · have h := C10_theorem.1 pC10 3 7 (by norm_num [pC10])
    simpa [pC10] using h
  · have h := C10_theorem.2 pC10 (by norm_num [pC10])
    simpa [pC10] using h

/-! ## HolonomicBlend PTG (`src/libselfdriving/src/ptgs/HolonomicBlend.cpp`) -/

/-- `mrpt::nav` PTG dynamic state (`ptg_t::TNavDynamicState`): current local
velocity, relative target, and target-relative speed. -/
structure TNavDynamicState where
  curVelLocal : TTwist2D
  relTarget : TPose2D
  targetRelSpeed : ℝ

namespace HolonomicBlend

/-- `HolonomicBlend::PATH_TIME_STEP` (HolonomicBlend.cpp line 58): 10 ms. -/
def PATH_TIME_STEP : ℝ := 10e-3

/-- `HolonomicBlend::eps` (line 59): epsilon for detecting 1/0 situations. -/
def eps : ℝ := 1e-4

/-- Parameters of a `HolonomicBlend` PTG instance, with the default math
expressions (`expr_V = "V_MAX"`, `expr_W = "W_MAX"`,
`expr_T_ramp = "T_ramp_max"`, set in `internal_construct_exprs`). -/
structure HBParams where
  T_ramp_max : ℝ
  V_MAX : ℝ
  W_MAX : ℝ
  refDistance : ℝ
  alphaValuesCount : ℕ

/-- `calc_trans_distance_t_below_Tramp_abc_numeric` (lines 97-132): trapezoid
rule with 20 subintervals for `∫₀ᵀ sqrt(a·τ² + b·τ + c) dτ`.  The source
clamps small negative evaluations of the radicand to 0 (`if (dd < 0) dd = 0`);
its assertions `a ≥ 0`, `c ≥ 0`, `dd > -1e-5` always hold at the call sites,
where `a`, `c` come from sums of squares. -/
def calc_trans_distance_t_below_Tramp_abc_numeric (T a b c : ℝ) : ℝ :=
  let At := T / 20
  let f : ℕ → ℝ := fun j =>
    if j = 0 then Real.sqrt c
    else Real.sqrt (max (a * ((j : ℝ) * At) ^ 2 + b * ((j : ℝ) * At) + c) 0)
  ∑ i ∈ Finset.range 20, At * (f i + f (i + 1)) * 0.5

/-- `HolonomicBlend::calc_trans_distance_t_below_Tramp_abc` (lines 135-147):
delegates to the numeric integration. -/
def calc_trans_distance_t_below_Tramp_abc (t a b c : ℝ) : ℝ :=
  calc_trans_distance_t_below_Tramp_abc_numeric t a b c

/-- `HolonomicBlend::calc_trans_distance_t_below_Tramp` (lines 151-181):
line-integral distance along the ramp, handling the 1/0 special cases. -/
def calc_trans_distance_t_below_Tramp (k2 k4 vxi vyi t : ℝ) : ℝ :=
  let c := vxi * vxi + vyi * vyi
  if eps < |k2| ∨ eps < |k4| then
    let a := (k2 * k2) * 4 + (k4 * k4) * 4
    let b := (k2 * vxi) * 4 + (k4 * vyi) * 4
    if |b| < eps ∧ |c| < eps then
      -- numerically-ill case b = c = 0 (initial velocity = 0)
      Real.sqrt a * (t * t) * 0.5
    else calc_trans_distance_t_below_Tramp_abc t a b c
  else Real.sqrt c * t

/-- The per-direction parameters computed by
`internal_params_from_dir_and_dynstate` (lines 939-970) under the default
expressions: `T_ramp = T_ramp_max`, `vf = |V_MAX|`,
`wf = signWithZero(dir)·|W_MAX|`, and the initial/final velocities. -/
structure InternalParams where
  T_ramp : ℝ
  vf : ℝ
  wf : ℝ
  vxi : ℝ
  vyi : ℝ
  vxf : ℝ
  vyf : ℝ

/-- `HolonomicBlend::internal_params_from_dir_and_dynstate` with the default
(compiled) expressions `expr_V = V_MAX`, `expr_W = W_MAX`,
`expr_T_ramp = T_ramp_max`. -/
def internal_params_from_dir_and_dynstate (p : HBParams) (ds : TNavDynamicState)
    (dir : ℝ) : InternalParams :=
  { T_ramp := p.T_ramp_max
    vf := |p.V_MAX|
    wf := signWithZero dir * |p.W_MAX|
    vxi := ds.curVelLocal.vx
    vyi := ds.curVelLocal.vy
    vxf := |p.V_MAX| * Real.cos dir
    vyf := |p.V_MAX| * Real.sin dir }

/-- The ramp coefficient `k2 = (vxf − vxi)/(2·T_ramp)`. -/
def hbK2 (pp : InternalParams) : ℝ := (pp.vxf - pp.vxi) * (1 / (2 * pp.T_ramp))

/-- The ramp coefficient `k4 = (vyf − vyi)/(2·T_ramp)`. -/
def hbK4 (pp : InternalParams) : ℝ := (pp.vyf - pp.vyi) * (1 / (2 * pp.T_ramp))

/-- The arc length over the whole ramp `[0, T_ramp]`
(`dist_trans_T_ramp` in `getPathStepForDist`). -/
def rampDistParams (pp : InternalParams) : ℝ :=
  calc_trans_distance_t_below_Tramp (hbK2 pp) (hbK4 pp) pp.vxi pp.vyi pp.T_ramp

/-- The Newton iteration of `getPathStepForDist`'s general in-ramp case
(lines 689-703): 10 iterations from `0.6·T_ramp`, clamping negative iterates
to 0 and stopping once `|err| < 1e-3` (the update is applied before the
convergence test, as in the source).  The source's
`ASSERT_(|diff| > 1e-40)` guard is not modelled: real division is total. -/
def newtonStepLoop (a b c dist : ℝ) : ℕ → ℝ → ℝ
  | 0, t => t
  | n + 1, t =>
    let err := calc_trans_distance_t_below_Tramp_abc t a b c - dist
    let diff := Real.sqrt (a * t * t + b * t + c)
    let t2 := t - err / diff
    let t3 := if t2 < 0 then 0 else t2
    if |err| < 1e-3 then t3 else newtonStepLoop a b c dist n t3

/-- `HolonomicBlend::getPathStepForDist` (lines 622-714): solve for the time
at which the transversed distance reaches `dist`, then return
`round(t/PATH_TIME_STEP)`. -/
def getPathStepForDist (p : HBParams) (ds : TNavDynamicState) (k : ℕ)
    (dist : ℝ) : Option ℕ :=
  let dir := index2alpha p.alphaValuesCount k
  let pp := internal_params_from_dir_and_dynstate p ds dir
  let k2 := hbK2 pp
  let k4 := hbK4 pp
  let dist_trans_T_ramp := rampDistParams pp
  let t_solved :=
    if dist_trans_T_ramp ≤ dist then
      -- solution within t ≥ T_ramp
      pp.T_ramp + (dist - dist_trans_T_ramp) / p.V_MAX
    else
      if |k2| < eps ∧ |k4| < eps then
        -- case 1: straight-line path
        dist / p.V_MAX
      else
        let a := (k2 * k2) * 4 + (k4 * k4) * 4
        let b := (k2 * pp.vxi) * 4 + (k4 * pp.vyi) * 4
        let c := pp.vxi * pp.vxi + pp.vyi * pp.vyi
        if |b| < eps ∧ |c| < eps then
          -- case 2: initial velocity = 0
          Real.sqrt 2 * (1 / a ^ ((1 : ℝ) / 4)) * Real.sqrt dist
        else
          -- case 3: Newton iteration
          newtonStepLoop a b c dist 10 (pp.T_ramp * 0.6)
  if 0 ≤ t_solved then some (roundR (t_solved / PATH_TIME_STEP)).toNat
  else none

/-- `HolonomicBlend::internal_getPathDist` (lines 599-620). -/
def internal_getPathDist (p : HBParams) (ds : TNavDynamicState) (step : ℕ)
    (T_ramp vxf vyf : ℝ) : ℝ :=
  let t := PATH_TIME_STEP * step
  let TR2_ := 1 / (2 * T_ramp)
  let vxi := ds.curVelLocal.vx
  let vyi := ds.curVelLocal.vy
  let k2 := (vxf - vxi) * TR2_
  let k4 := (vyf - vyi) * TR2_
  if t < T_ramp then calc_trans_distance_t_below_Tramp k2 k4 vxi vyi t
  else (t - T_ramp) * p.V_MAX + calc_trans_distance_t_below_Tramp k2 k4 vxi vyi T_ramp

/-- One iteration of the 4-dimensional Newton solver of
`inverseMap_WS2TP_with_Tramp` (lines 337-456): residual and Jacobian over
`q = (t, vxf, vyf, T_ramp)`, branching on `t ≥ T_ramp` and on the
stop-at-target condition.  `lu_solve` is modelled as multiplication by the
matrix inverse (`J⁻¹ = 0` for singular `J`, where the C++ LU factorization
would produce non-finite values); under the default expression
`expr_V = V_MAX`, `lambda_vel(α) = |V_MAX|` for every `α`. -/
def hbIter (p : HBParams) (ds : TNavDynamicState) (x y : ℝ) (q : Fin 4 → ℝ) :
    (Fin 4 → ℝ) × Bool :=
  let t := q 0
  let vxf := q 1
  let vyf := q 2
  let T_ramp := q 3
  let vxi := ds.curVelLocal.vx
  let vyi := ds.curVelLocal.vy
  let V_MAXsq := |p.V_MAX| ^ 2
  let stopAtTarget := V_MAXsq < (0.10 * 1.05) ^ 2
  let TR_ := 1 / T_ramp
  let TR2_ := 1 / (2 * T_ramp)
  let r : Fin 4 → ℝ :=
    ![if T_ramp ≤ t then 0.5 * T_ramp * (vxi + vxf) + (t - T_ramp) * vxf - x
      else vxi * t + t * t * TR2_ * (vxf - vxi) - x,
      if T_ramp ≤ t then 0.5 * T_ramp * (vyi + vyf) + (t - T_ramp) * vyf - y
      else vyi * t + t * t * TR2_ * (vyf - vyi) - y,
      vxf * vxf + vyf * vyf - V_MAXsq,
      if stopAtTarget then T_ramp - t else 0]
  let J : Matrix (Fin 4) (Fin 4) ℝ :=
    if T_ramp ≤ t then
      (if stopAtTarget then
        !![vxf, 0.5 * T_ramp + t, 0, 0.5 * (vxi - vxf);
           vyf, 0, 0.5 * T_ramp + t, 0.5 * (vyi - vyf);
           0, 2 * vxf, 2 * vyf, 0;
           -1, 0, 0, 1]
      else
        !![vxf, 0.5 * T_ramp + t, 0, 0;
           vyf, 0, 0.5 * T_ramp + t, 0;
           0, 2 * vxf, 2 * vyf, 0;
           0, 0, 0, 1])
    else
      (if stopAtTarget then
        !![vxi + t * TR_ * (vxf - vxi), TR2_ * t * t, 0, -(t * t) * TR2_ * (vxf - vxi);
           vyi + t * TR_ * (vyf - vyi), 0, TR2_ * t * t, -(t * t) * TR2_ * (vyf - vyi);
           0, 2 * vxf, 2 * vyf, 0;
           -1, 0, 0, 1]
      else
        !![vxi + t * TR_ * (vxf - vxi), TR2_ * t * t, 0, 0;
           vyi + t * TR_ * (vyf - vyi), 0, TR2_ * t * t, 0;
           0, 2 * vxf, 2 * vyf, 0;
           0, 0, 0, 1])
  -- when the stop-at-target condition is off, both branches of the source
  -- reset q[3] to T_ramp_max before the solve
  let qmid := if stopAtTarget then q else Function.update q 3 p.T_ramp_max
  let q_incr := Matrix.mulVec J⁻¹ r
  let qn := qmid - q_incr
  let err_mod := Real.sqrt (r 0 ^ 2 + r 1 ^ 2 + r 2 ^ 2 + r 3 ^ 2)
  (qn, if err_mod < 1e-3 then true else false)

/-- The Newton loop of `inverseMap_WS2TP_with_Tramp`: up to 25 iterations,
stopping as soon as an iteration reports convergence. -/
def hbNewtonLoop (p : HBParams) (ds : TNavDynamicState) (x y : ℝ) :
    ℕ → (Fin 4 → ℝ) → (Fin 4 → ℝ) × Bool
  | 0, q => (q, false)
  | n + 1, q =>
    let s := hbIter p ds x y q
    if s.2 then (s.1, true) else hbNewtonLoop p ds x y n s.1

/-- `HolonomicBlend::inverseMap_WS2TP_with_Tramp` (lines 310-485).  The
`ASSERT_(x != 0 || y != 0)` at the top is modelled as `Except.error ()` (the
MRPT assertion macro aborts the call by throwing); a normal return of the
C++ `bool` plus out-parameters becomes `Except.ok (Option (k, d, T_ramp))`.
The C cast `unsigned int solved_step = solved_t / PATH_TIME_STEP` truncates. -/
def inverseMap_WS2TP_with_Tramp (p : HBParams) (ds : TNavDynamicState)
    (x y : ℝ) : Except Unit (Option (ℕ × ℝ × ℝ)) :=
  if x = 0 ∧ y = 0 then Except.error ()
  else
    let q0 : Fin 4 → ℝ :=
      ![p.T_ramp_max * 1.1,
        p.V_MAX * x / Real.sqrt (x * x + y * y),
        p.V_MAX * y / Real.sqrt (x * x + y * y),
        p.T_ramp_max]
    let s := hbNewtonLoop p ds x y 25 q0
    let q := s.1
    if s.2 ∧ 0 ≤ q 0 then
      let alpha := atan2 (q 2) (q 1)
      let out_k := alpha2index p.alphaValuesCount alpha
      let out_T_ramp := q 3
      let solved_step := (⌊q 0 / PATH_TIME_STEP⌋).toNat
      let found_dist := internal_getPathDist p ds solved_step out_T_ramp (q 1) (q 2)
      Except.ok (some (out_k, found_dist / p.refDistance, out_T_ramp))
    else Except.ok none

/-- `HolonomicBlend::inverseMap_WS2TP` (lines 302-308): drops the `T_ramp`
out-parameter. -/
def inverseMap_WS2TP (p : HBParams) (ds : TNavDynamicState) (x y : ℝ) :
    Except Unit (Option (ℕ × ℝ)) :=
  Except.map (Option.map fun res => (res.1, res.2.1))
    (inverseMap_WS2TP_with_Tramp p ds x y)

/-- `HolonomicBlend::PTG_IsIntoDomain` (lines 487-492): calls
`inverseMap_WS2TP` and returns its success flag. -/
def PTG_IsIntoDomain (p : HBParams) (ds : TNavDynamicState) (x y : ℝ) :
    Except Unit Bool :=
  Except.map Option.isSome (inverseMap_WS2TP p ds x y)

end HolonomicBlend

/-- C4: for HolonomicBlend `getPathStepForDist(k, dist)`, whenever `dist` is
at least the ramp arc length `D_ramp` (the arc length over `[0, T_ramp]`,
`dist_trans_T_ramp` in the source), the solved time is
`t = T_ramp + (dist − D_ramp)/V_MAX`, the call succeeds, and the returned
step is `round(t / PATH_TIME_STEP)` with `PATH_TIME_STEP` fixed at 10 ms. -/
theorem C4_theorem (p : HolonomicBlend.HBParams) (ds : TNavDynamicState)
    (k : ℕ) (dist : ℝ) (hT : 0 < p.T_ramp_max) (hV : 0 < p.V_MAX)
    (hd : HolonomicBlend.rampDistParams
        (HolonomicBlend.internal_params_from_dir_and_dynstate p ds
          (index2alpha p.alphaValuesCount k)) ≤ dist) :
    HolonomicBlend.PATH_TIME_STEP = 10e-3 ∧
      HolonomicBlend.getPathStepForDist p ds k dist =
        some (roundR ((p.T_ramp_max +
            (dist - HolonomicBlend.rampDistParams
              (HolonomicBlend.internal_params_from_dir_and_dynstate p ds
                (index2alpha p.alphaValuesCount k))) / p.V_MAX) /
          HolonomicBlend.PATH_TIME_STEP)).toNat := by
  refine ⟨rfl, ?_⟩
  have hTr : (HolonomicBlend.internal_params_from_dir_and_dynstate p ds
      (index2alpha p.alphaValuesCount k)).T_ramp = p.T_ramp_max := rfl
  have h0 : 0 ≤ p.T_ramp_max +
      (dist - HolonomicBlend.rampDistParams
        (HolonomicBlend.internal_params_from_dir_and_dynstate p ds
          (index2alpha p.alphaValuesCount k))) / p.V_MAX := by
    have h1 : 0 ≤ (dist - HolonomicBlend.rampDistParams
        (HolonomicBlend.internal_params_from_dir_and_dynstate p ds
          (index2alpha p.alphaValuesCount k))) / p.V_MAX :=
      div_nonneg (sub_nonneg.2 hd) hV.le
    linarith
  unfold HolonomicBlend.getPathStepForDist
  simp only []
  rw [if_pos hd, hTr, if_pos h0]

/-- Evaluation of the direction discretization at the middle index of the
default 31-sector layout: `index2alpha(31, 15) = π·(−1 + 2·15.5/31) = 0`. -/
theorem index2alpha_31_15 : index2alpha 31 15 = 0 := by
  unfold index2alpha
  norm_num

/-- The concrete HolonomicBlend parameter set of the C4 witness:
`T_ramp_max = 1`, `V_MAX = 2`, 31 trajectories. -/
def pW : HolonomicBlend.HBParams :=
  { T_ramp_max := 1, V_MAX := 2, W_MAX := 1, refDistance := 1
    alphaValuesCount := 31 }

/-- The dynamic state of the C4 witness: at rest. -/
def dsW : TNavDynamicState :=
  { curVelLocal := ⟨0, 0, 0⟩, relTarget := ⟨1, 0, 0⟩, targetRelSpeed := 1 }

/-- Ramp arc length of the witness configuration: `k2 = 1`, `k4 = 0`,
`b = c = 0`, so `D_ramp = sqrt(4)·T²/2 = 1`. -/
theorem rampDistParams_wit :
    HolonomicBlend.rampDistParams ⟨1, 2, 0, 0, 0, 2, 0⟩ = 1 := by
  have h4 : Real.sqrt 4 = 2 := by
    rw [show (4 : ℝ) = 2 ^ 2 by norm_num]
    exact Real.sqrt_sq (by norm_num)
  norm_num [HolonomicBlend.rampDistParams, HolonomicBlend.hbK2,
    HolonomicBlend.hbK4, HolonomicBlend.calc_trans_distance_t_below_Tramp,
    HolonomicBlend.eps, h4]

/-- Ramp arc length of the witness configuration, phrased on the parameter
set itself (direction `k = 15` is the straight-ahead trajectory). -/
theorem rampDist_wit :
    HolonomicBlend.rampDistParams
      (HolonomicBlend.internal_params_from_dir_and_dynstate pW dsW
        (index2alpha pW.alphaValuesCount 15)) = 1 := by
  have hdir : index2alpha pW.alphaValuesCount 15 = 0 := by
    rw [show pW.alphaValuesCount = 31 from rfl]
    exact index2alpha_31_15
  rw [hdir]
  have hpp : HolonomicBlend.internal_params_from_dir_and_dynstate pW dsW 0 =
      ⟨1, 2, 0, 0, 0, 2, 0⟩ := by
    norm_num [HolonomicBlend.internal_params_from_dir_and_dynstate, pW, dsW,
      Real.cos_zero, Real.sin_zero, signWithZero, abs_two]
  rw [hpp]
  exact rampDistParams_wit

/-- C4 (witness): at the witness configuration, for `dist = 3 ≥ D_ramp = 1`,
the solved time is `t = 1 + (3 − 1)/2 = 2` and the returned step is
`round(2 / 0.01) = 200`. -/
theorem C4_witness :
    HolonomicBlend.getPathStepForDist pW dsW 15 3 = some 200 := by
  have h := C4_theorem pW dsW 15 3 (by norm_num [pW]) (by norm_num [pW])
    (by rw [rampDist_wit]; norm_num)
  rw [h.2, rampDist_wit]
  have h200 : (pW.T_ramp_max + (3 - 1) / pW.V_MAX) /
      HolonomicBlend.PATH_TIME_STEP = 200 := by
    norm_num [pW, HolonomicBlend.PATH_TIME_STEP]
  rw [h200]
  have hr : roundR 200 = 200 := by
    unfold roundR
    rw [if_pos (by norm_num)]
    exact Int.floor_eq_iff.2 (by norm_num)
  rw [hr]
  rfl

/-- `Except.map` produces an error exactly when its argument is one. -/
theorem except_map_error_iff {α β : Type} (f : α → β) (e : Except Unit α) :
    Except.map f e = Except.error () ↔ e = Except.error () := by
  cases e <;> simp [Except.map]

/-- C9: `HolonomicBlend::inverseMap_WS2TP` (and therefore
`PTG_IsIntoDomain`, which calls it) has the undocumented precondition
`(x, y) ≠ (0, 0)`: the call aborts through the `ASSERT_(x != 0 || y != 0)`
exactly when the offset is zero; for every nonzero input the assertion
holds and the call returns its boolean success flag normally. -/
theorem C9_theorem : ∀ (p : HolonomicBlend.HBParams)
    (ds : TNavDynamicState) (x y : ℝ),
    ((HolonomicBlend.inverseMap_WS2TP p ds x y = Except.error ()) ↔
      (x = 0 ∧ y = 0)) ∧
    ((HolonomicBlend.PTG_IsIntoDomain p ds x y = Except.error ()) ↔
      (x = 0 ∧ y = 0)) := by
  intro p ds x y
  have hbase : (HolonomicBlend.inverseMap_WS2TP_with_Tramp p ds x y =
      Except.error ()) ↔ (x = 0 ∧ y = 0) := by
    unfold HolonomicBlend.inverseMap_WS2TP_with_Tramp
    by_cases h : x = 0 ∧ y = 0
    · simp [h]
    · rw [if_neg h]
      constructor
      · intro hc
        exfalso
        revert hc
        simp only []
        split_ifs <;> simp
      · intro hc
        exact absurd hc h
  constructor
  · unfold HolonomicBlend.inverseMap_WS2TP
    rw [except_map_error_iff]
    exact hbase
  · unfold HolonomicBlend.PTG_IsIntoDomain HolonomicBlend.inverseMap_WS2TP
    rw [except_map_error_iff, except_map_error_iff]
    exact hbase

/-! ## TPS_RRTstar planner (`src/libselfdriving/src/TPS_RRTstar.cpp`)

The planner treats PTGs through the abstract capability interface of spec
§4.1; it is embedded below as a structure of functions.  The C++ interface
holds mutable dynamic state set through `updateNavDynamicState`; since
planning is single-threaded and every query between two updates sees the
same state, the queries here take the dynamic state as an explicit
argument.  Random sampling (`draw_random_free_pose`) is abstracted into an
input stream of sampled poses, one per iteration, so `maxIterations`
corresponds to the length of the stream. -/

/-- `selfdriving::SE2_KinState` (SE2_KinState.h): pose plus world twist. -/
structure SE2_KinState where
  pose : TPose2D
  vel : TTwist2D

/-- The abstract PTG interface used by the planner.  The last two fields
model `PoseDistanceMetric<SE2_KinState>`, which the planner constructs from
each PTG; its implementation is not under `src/`, so those two fields are
Modelled from the spec (§4.5): a conservative boolean prune and an exact
TP-space distance query returning `none` when the PTG cannot realize the
offset. -/
structure PTG where
  refDistance : ℝ
  initTPObstacleSingle : TNavDynamicState → ℕ → ℝ
  updateTPObstacleSingle : TNavDynamicState → ℝ → ℝ → ℕ → ℝ → ℝ
  getPathStepForDist : TNavDynamicState → ℕ → ℝ → Option ℕ
  getPathPose : TNavDynamicState → ℕ → ℕ → TPose2D
  getPathTwist : TNavDynamicState → ℕ → ℕ → TTwist2D
  cannotBeNearerThan : SE2_KinState → TPose2D → ℝ → Bool
  distance : SE2_KinState → TPose2D → Option (ℝ × ℕ)

/-- `selfdriving::MoveEdgeSE2_TPS`: one tree edge.  The optional
`interpolatedPath` (visualization only) is not modelled. -/
structure MoveEdgeSE2_TPS where
  parentId : ℕ
  ptgDist : ℝ
  ptgIndex : ℕ
  ptgPathIndex : ℕ
  ptgSpeedScale : ℝ
  stateFrom : SE2_KinState
  stateTo : SE2_KinState
  cost : ℝ

/-- A node of the motion tree: kinematic state plus cost-to-come (`cost_`). -/
structure TreeNode where
  state : SE2_KinState
  cost_ : ℝ

/-- Modelled from the spec: `MotionPrimitivesTreeSE2` (outside `src/`),
spec §3/§4.4: nodes indexed by dense ids (list position), edges keyed by
child id, each child having exactly one parent. -/
structure MotionPrimitivesTreeSE2 where
  nodes : List TreeNode
  edges : List (ℕ × MoveEdgeSE2_TPS)

/-- Default node used for (never-reached) out-of-range lookups. -/
def nodeDefault : TreeNode := ⟨⟨⟨0, 0, 0⟩, ⟨0, 0, 0⟩⟩, 0⟩

/-- Default PTG used for (never-reached) out-of-range lookups. -/
def ptgDefault : PTG :=
  { refDistance := 0
    initTPObstacleSingle := fun _ _ => 0
    updateTPObstacleSingle := fun _ _ _ _ a => a
    getPathStepForDist := fun _ _ _ => none
    getPathPose := fun _ _ _ => ⟨0, 0, 0⟩
    getPathTwist := fun _ _ _ => ⟨0, 0, 0⟩
    cannotBeNearerThan := fun _ _ _ => false
    distance := fun _ _ => none }

/-- `selfdriving::PlannerInput`. -/
structure PlannerInput where
  stateStart : SE2_KinState
  stateGoal : SE2_KinState
  ptgs : List PTG
  obstacles : List TPoint2D
  worldBboxMin : TPose2D
  worldBboxMax : TPose2D

/-- `TPS_RRTstar::Parameters` — only the field the embedded fragment reads;
`maxIterations` is the sample-stream length, the sampling and visualization
parameters configure the abstracted parts. -/
structure Parameters where
  initialSearchRadius : ℝ

/-- `selfdriving::PlannerOutput`. -/
structure PlannerOutput where
  originalInput : PlannerInput
  motionTree : MotionPrimitivesTreeSE2
  success : Bool

/-- The two failure kinds of a `plan` call: the four input sanity checks
(spec §7 `PrecondViolation`) versus the later internal MRPT assertions (the
`MAX_XY_DIST > 0` check and the assertions inside the neighbor search). -/
inductive PlanError where
  | precondViolation
  | assertViolation
deriving DecidableEq

/-- `within_bbox` (TPS_RRTstar.cpp lines 48-54): strict inequalities against
BOTH corners. -/
def within_bbox (p max min : TPose2D) : Prop :=
  p.x < max.x ∧ p.y < max.y ∧ p.phi < max.phi ∧
    min.x < p.x ∧ min.y < p.y ∧ min.phi < p.phi

/-- Modelled from the spec: `TrajectoriesAndRobotShape::initialized()`
(outside `src/`); the spec requires an ordered list of initialized PTGs, so
an empty list is the uninitialized state. -/
def ptgsInitialized (pin : PlannerInput) : Prop := pin.ptgs ≠ []

/-- `TPS_RRTstar::transform_pc_square_clipping` (lines 283-315): per-axis
clipping `|Δ| ≤ MAX_DIST_XY` followed by transformation into the local frame
through `(-asSeenFrom).composePoint`. -/
def transform_pc_square_clipping (inMap : List TPoint2D)
    (asSeenFrom : TPose2D) (MAX_DIST_XY : ℝ) : List TPoint2D :=
  match inMap with
  | [] => []
  | g :: rest =>
    if MAX_DIST_XY < |g.x - asSeenFrom.x| ∨ MAX_DIST_XY < |g.y - asSeenFrom.y| then
      transform_pc_square_clipping rest asSeenFrom MAX_DIST_XY
    else
      composePoint (negPose asSeenFrom) g.x g.y ::
        transform_pc_square_clipping rest asSeenFrom MAX_DIST_XY

/-- `TPS_RRTstar::tp_obstacles_single_path` (lines 317-348): initialize the
TP-obstacle entry for direction `k` and fold the per-point update over the
local obstacle points. -/
def tp_obstacles_single_path (k : ℕ) (localObstacles : List TPoint2D)
    (ptg : PTG) (ds : TNavDynamicState) : ℝ :=
  localObstacles.foldl (fun acc o => ptg.updateTPObstacleSingle ds o.x o.y k acc)
    (ptg.initTPObstacleSingle ds k)

/-- A local-obstacle cache entry (`TPS_RRTstar::LocalObstaclesInfo`). -/
structure LocalObstaclesInfo where
  globalNodePose : TPose2D
  obs : List TPoint2D

/-- `TPS_RRTstar::cached_local_obstacles` (lines 538-563): reuse the cached
entry iff one exists whose stored pose equals the node's current pose, else
recompute via `transform_pc_square_clipping` and store. -/
def cached_local_obstacles (tree : MotionPrimitivesTreeSE2)
    (cache : ℕ → Option LocalObstaclesInfo) (nodeID : ℕ)
    (globalObstacles : List TPoint2D) (MAX_XY_DIST : ℝ) :
    List TPoint2D × (ℕ → Option LocalObstaclesInfo) :=
  let node := tree.nodes.getD nodeID nodeDefault
  match cache nodeID with
  | some loc =>
    if loc.globalNodePose = node.state.pose then (loc.obs, cache)
    else
      let newObs := transform_pc_square_clipping globalObstacles
        node.state.pose MAX_XY_DIST
      (newObs, Function.update cache nodeID (some ⟨node.state.pose, newObs⟩))
  | none =>
    let newObs := transform_pc_square_clipping globalObstacles
      node.state.pose MAX_XY_DIST
    (newObs, Function.update cache nodeID (some ⟨node.state.pose, newObs⟩))

/-- One tuple of the neighbor search result: multimap key plus the mapped
`(node_id, ptg_idx, trajectory_idx, distance)` (lines 530-532; the key
equals the distance). -/
structure ClosestEntry where
  key : ℝ
  nodeId : ℕ
  ptgIdx : ℕ
  trajIdx : ℕ
  dist : ℝ

/-- Insertion into the ordered multimap: a `std::multimap` emplace places
the new element at the upper bound of its key's range. -/
def multimapInsert (e : ClosestEntry) : List ClosestEntry → List ClosestEntry
  | [] => [e]
  | h :: t => if h.key ≤ e.key then h :: multimapInsert e t else e :: h :: t

/-- The body of `find_nodes_within_ball`'s inner loop for one node/PTG pair
(lines 503-533): prune, exact distance, the `ASSERTMSG_(distance > 0)`
duplicate-pose check, the radius filter, and the multimap emplace. -/
def find_nodes_within_ball_step (query : TPose2D) (maxDistance : ℝ)
    (node : TreeNode) (nid pidx : ℕ) (de : PTG) (acc : List ClosestEntry) :
    Except PlanError (List ClosestEntry) :=
  if de.cannotBeNearerThan node.state query maxDistance then Except.ok acc
  else
    match de.distance node.state query with
    | none => Except.ok acc
    | some (distance, trajIndex) =>
      if distance ≤ 0 then Except.error PlanError.assertViolation
      else if maxDistance < distance then Except.ok acc
      else Except.ok (multimapInsert ⟨distance, nid, pidx, trajIndex, distance⟩ acc)

/-- Inner loop of `find_nodes_within_ball` over the per-PTG distance
evaluators. -/
def find_nodes_within_ball_ptgLoop (query : TPose2D) (maxDistance : ℝ)
    (node : TreeNode) (nid : ℕ) :
    ℕ → List PTG → List ClosestEntry → Except PlanError (List ClosestEntry)
  | _, [], acc => Except.ok acc
  | pidx, de :: rest, acc =>
    match find_nodes_within_ball_step query maxDistance node nid pidx de acc with
    | Except.error e => Except.error e
    | Except.ok acc2 =>
      find_nodes_within_ball_ptgLoop query maxDistance node nid (pidx + 1) rest acc2

/-- Outer loop of `find_nodes_within_ball` over the tree nodes (in id
order, matching the `std::map` iteration). -/
def find_nodes_within_ball_nodeLoop (query : TPose2D) (maxDistance : ℝ)
    (ptgs : List PTG) :
    ℕ → List TreeNode → List ClosestEntry → Except PlanError (List ClosestEntry)
  | _, [], acc => Except.ok acc
  | nid, node :: rest, acc =>
    match find_nodes_within_ball_ptgLoop query maxDistance node nid 0 ptgs acc with
    | Except.error e => Except.error e
    | Except.ok acc2 =>
      find_nodes_within_ball_nodeLoop query maxDistance ptgs (nid + 1) rest acc2

/-- `TPS_RRTstar::find_nodes_within_ball` (lines 478-536).  The per-PTG
distance evaluators are constructed one from each PTG (lines 492-493), so
the evaluator list is the PTG list itself here. -/
def find_nodes_within_ball (tree : MotionPrimitivesTreeSE2) (query : TPose2D)
    (maxDistance : ℝ) (ptgs : List PTG) :
    Except PlanError (List ClosestEntry) :=
  if tree.nodes.isEmpty then Except.error PlanError.assertViolation
  else if ptgs.isEmpty then Except.error PlanError.assertViolation
  else find_nodes_within_ball_nodeLoop query maxDistance ptgs 0 tree.nodes []

/-- `TPS_RRTstar::cost_path_segment` (lines 565-568). -/
def cost_path_segment (edge : MoveEdgeSE2_TPS) : ℝ := edge.ptgDist

/-- The PTG dynamic state the planner installs before evaluating a
candidate (lines 132-136): the parent's velocity rotated into its body
frame, `relTarget = (1, 0, 0)`, `targetRelSpeed = 1`. -/
def plannerDynState (srcNode : TreeNode) : TNavDynamicState :=
  { curVelLocal := rotateTwist srcNode.state.vel (-srcNode.state.pose.phi)
    relTarget := ⟨1, 0, 0⟩
    targetRelSpeed := 1 }

/-- The local obstacle view at a node.  During `plan`, node poses never
change (the rewire step is an unimplemented TODO), so the pose-checked cache
of `cached_local_obstacles` always reduces to this pure function (the cache
itself is verified separately). -/
def localObstaclesOf (pin : PlannerInput) (maxXY : ℝ) (srcNode : TreeNode) :
    List TPoint2D :=
  transform_pc_square_clipping pin.obstacles srcNode.state.pose maxXY

/-- The candidate evaluation of one neighbor tuple inside the main loop
(lines 122-196): free distance along the chosen direction at the parent's
local obstacles, the `trajDist >= freeDistance` rejection, the path-step
solve, the child state reconstruction, and the edge/cost assembly. -/
def evalCandidate (pin : PlannerInput) (maxXY : ℝ) (nodes : List TreeNode)
    (ent : ClosestEntry) : Option (MoveEdgeSE2_TPS × ℝ) :=
  let srcNode := nodes.getD ent.nodeId nodeDefault
  let localObstacles := localObstaclesOf pin maxXY srcNode
  let ptg := pin.ptgs.getD ent.ptgIdx ptgDefault
  let ds := plannerDynState srcNode
  let freeDistance := tp_obstacles_single_path ent.trajIdx localObstacles ptg ds
  if freeDistance ≤ ent.dist then none
  else
    match ptg.getPathStepForDist ds ent.trajIdx ent.dist with
    | none => none
    | some ptg_step =>
      let reconstrRelPose := ptg.getPathPose ds ent.trajIdx ptg_step
      let relTwist := ptg.getPathTwist ds ent.trajIdx ptg_step
      let q_i := composePose srcNode.state.pose reconstrRelPose
      let x_i : SE2_KinState := ⟨q_i, rotateTwist relTwist srcNode.state.pose.phi⟩
      let e0 : MoveEdgeSE2_TPS :=
        { parentId := ent.nodeId
          ptgDist := ent.dist
          ptgIndex := ent.ptgIdx
          ptgPathIndex := ent.trajIdx
          ptgSpeedScale := ds.targetRelSpeed
          stateFrom := srcNode.state
          stateTo := x_i
          cost := 0 }
      let e := { e0 with cost := cost_path_segment e0 }
      some (e, srcNode.cost_ + e.cost)

/-- The strict-improvement minimum over the candidate list (lines 192-196):
a later candidate replaces the best only when its total cost is strictly
smaller. -/
def selectBest (pin : PlannerInput) (maxXY : ℝ) (nodes : List TreeNode) :
    List ClosestEntry → Option (MoveEdgeSE2_TPS × ℝ) →
      Option (MoveEdgeSE2_TPS × ℝ)
  | [], best => best
  | ent :: rest, best =>
    let best2 :=
      match evalCandidate pin maxXY nodes ent with
      | none => best
      | some (e, c) =>
        match best with
        | none => some (e, c)
        | some (be, bc) => if c < bc then some (e, c) else some (be, bc)
    selectBest pin maxXY nodes rest best2

/-- Modelled from the spec: `MotionPrimitivesTree::next_free_node_ID` and
`insert_node_and_edge` (outside `src/`): the next free id is the node
count; the child node is appended with cost-to-come = parent cost + edge
cost (spec §3: "Cost-to-come of child = cost-to-come of parent + edge
cost"), and the edge is keyed by the child id. -/
def insert_node_and_edge (tree : MotionPrimitivesTreeSE2)
    (edge : MoveEdgeSE2_TPS) (newCost : ℝ) : MotionPrimitivesTreeSE2 :=
  { nodes := tree.nodes ++ [⟨edge.stateTo, newCost⟩]
    edges := tree.edges ++ [(tree.nodes.length, edge)] }

/-- One iteration of the main loop (lines 97-237) for the sampled pose
`qi`: neighbor search, candidate evaluation, and insertion of the best
surviving edge; an empty candidate set or no surviving candidate leaves the
tree unchanged. -/
def planIteration (pin : PlannerInput) (searchRadius maxXY : ℝ)
    (tree : MotionPrimitivesTreeSE2) (qi : TPose2D) :
    Except PlanError MotionPrimitivesTreeSE2 :=
  match find_nodes_within_ball tree qi searchRadius pin.ptgs with
  | Except.error e => Except.error e
  | Except.ok closeNodes =>
    if closeNodes.isEmpty then Except.ok tree
    else
      match selectBest pin maxXY tree.nodes closeNodes none with
      | none => Except.ok tree
      | some (bestEdge, bestCost) =>
        Except.ok (insert_node_and_edge tree bestEdge bestCost)

/-- The iteration loop over the sample stream. -/
def planLoop (pin : PlannerInput) (searchRadius maxXY : ℝ) :
    List TPose2D → MotionPrimitivesTreeSE2 →
      Except PlanError MotionPrimitivesTreeSE2
  | [], tree => Except.ok tree
  | qi :: rest, tree =>
    match planIteration pin searchRadius maxXY tree qi with
    | Except.error e => Except.error e
    | Except.ok t2 => planLoop pin searchRadius maxXY rest t2

/-- The clipping distance `MAX_XY_DIST` (lines 73-75): `keep_max` over the
PTG reference distances, starting from 0. -/
def maxRefDistance (ptgs : List PTG) : ℝ :=
  ptgs.foldl (fun m p => max m p.refDistance) 0

/-- `TPS_RRTstar::plan` (lines 56-281): the four input sanity checks, the
`MAX_XY_DIST > 0` assertion, root insertion, the iteration loop, and the
output assembly.  Modelled from the spec: `PlannerOutput::success` defaults
to `false` and the code never sets it to `true` (the goal check is an
`#if 0` placeholder); the root node carries cost-to-come 0 (spec §3). -/
def plan (pin : PlannerInput) (params : Parameters)
    (samples : List TPose2D) : Except PlanError PlannerOutput :=
  if ¬ ptgsInitialized pin then Except.error PlanError.precondViolation
  else if pin.worldBboxMin = pin.worldBboxMax then
    Except.error PlanError.precondViolation
  else if ¬ within_bbox pin.stateStart.pose pin.worldBboxMax pin.worldBboxMin then
    Except.error PlanError.precondViolation
  else if ¬ within_bbox pin.stateGoal.pose pin.worldBboxMax pin.worldBboxMin then
    Except.error PlanError.precondViolation
  else
    let MAX_XY_DIST := maxRefDistance pin.ptgs
    if MAX_XY_DIST ≤ 0 then Except.error PlanError.assertViolation
    else
      let tree0 : MotionPrimitivesTreeSE2 := ⟨[⟨pin.stateStart, 0⟩], []⟩
      match planLoop pin params.initialSearchRadius MAX_XY_DIST samples tree0 with
      | Except.error e => Except.error e
      | Except.ok t => Except.ok ⟨pin, t, false⟩

/-! ## Properties of the neighbor search -/

/-- Membership after a multimap insertion. -/
theorem mem_multimapInsert (e x : ClosestEntry) (l : List ClosestEntry) :
    x ∈ multimapInsert e l ↔ x = e ∨ x ∈ l := by
  induction l with
  | nil => simp [multimapInsert]
  | cons h t ih =>
    unfold multimapInsert
    by_cases hc : h.key ≤ e.key
    · rw [if_pos hc]
      simp only [List.mem_cons, ih]
      tauto
    · rw [if_neg hc]
      simp only [List.mem_cons]

/-- Multimap insertion preserves the ascending-key ordering. -/
theorem pairwise_multimapInsert (e : ClosestEntry) (l : List ClosestEntry)
    (hl : l.Pairwise (fun a b => a.key ≤ b.key)) :
    (multimapInsert e l).Pairwise (fun a b => a.key ≤ b.key) := by
  induction l with
  | nil => simp [multimapInsert]
  | cons h t ih =>
    rcases List.pairwise_cons.1 hl with ⟨hh, ht⟩
    unfold multimapInsert
    by_cases hc : h.key ≤ e.key
    · rw [if_pos hc]
      refine List.pairwise_cons.2 ⟨?_, ih ht⟩
      intro x hx
      rcases (mem_multimapInsert e x t).1 hx with rfl | hxt
      · exact hc
      · exact hh x hxt
    · rw [if_neg hc]
      refine List.pairwise_cons.2 ⟨?_, hl⟩
      intro x hx
      rcases List.mem_cons.1 hx with rfl | hxt
      · exact (not_le.1 hc).le
      · exact le_trans (not_le.1 hc).le (hh x hxt)

/-- What it means for an emitted tuple to be valid: positive exact distance
within the radius, key equal to the distance, and the referenced node/PTG
pair actually produced it through the distance evaluator. -/
def EntryOk (query : TPose2D) (maxDistance : ℝ) (nodes : List TreeNode)
    (ptgs : List PTG) (e : ClosestEntry) : Prop :=
  0 < e.dist ∧ e.dist ≤ maxDistance ∧ e.key = e.dist ∧
    ∃ node ptg, nodes[e.nodeId]? = some node ∧ ptgs[e.ptgIdx]? = some ptg ∧
      ptg.distance node.state query = some (e.dist, e.trajIdx)

/-- The step of the neighbor search either keeps the accumulator or inserts
one new entry that was produced by this node/PTG pair with a positive
distance inside the radius; it always preserves sortedness. -/
theorem find_nodes_within_ball_step_ok (query : TPose2D) (maxDistance : ℝ)
    (node : TreeNode) (nid pidx : ℕ) (de : PTG) (acc acc2 : List ClosestEntry)
    (h : find_nodes_within_ball_step query maxDistance node nid pidx de acc =
      Except.ok acc2) :
    (∀ e ∈ acc2, e ∈ acc ∨
      (0 < e.dist ∧ e.dist ≤ maxDistance ∧ e.key = e.dist ∧ e.nodeId = nid ∧
        e.ptgIdx = pidx ∧ de.distance node.state query = some (e.dist, e.trajIdx))) ∧
      (acc.Pairwise (fun a b => a.key ≤ b.key) →
        acc2.Pairwise (fun a b => a.key ≤ b.key)) := by
  unfold find_nodes_within_ball_step at h
  by_cases h1 : de.cannotBeNearerThan node.state query maxDistance = true
  · rw [if_pos h1] at h
    injection h with h
    subst h
    exact ⟨fun e he => Or.inl he, id⟩
  · rw [if_neg h1] at h
    cases hdist : de.distance node.state query with
    | none =>
      simp only [hdist] at h
      injection h with h
      subst h
      exact ⟨fun e he => Or.inl he, id⟩
    | some pr =>
      obtain ⟨d, tIdx⟩ := pr
      simp only [hdist] at h
      by_cases h2 : d ≤ 0
      · rw [if_pos h2] at h
        exact absurd h (by simp)
      · rw [if_neg h2] at h
        by_cases h3 : maxDistance < d
        · rw [if_pos h3] at h
          injection h with h
          subst h
          exact ⟨fun e he => Or.inl he, id⟩
        · rw [if_neg h3] at h
          injection h with h
          subst h
          constructor
          · intro e he
            rcases (mem_multimapInsert _ _ _).1 he with rfl | hmem
            · exact Or.inr ⟨not_le.1 h2, not_lt.1 h3, rfl, rfl, rfl, rfl⟩
            · exact Or.inl hmem
          · exact fun hs => pairwise_multimapInsert _ _ hs

/-- Every entry accumulated by the inner (per-PTG) loop is valid, and the
accumulator stays sorted. -/
theorem find_nodes_within_ball_ptgLoop_ok (query : TPose2D) (maxDistance : ℝ)
    (node : TreeNode) (nid : ℕ) (nodes : List TreeNode) (ptgs : List PTG)
    (hnode : nodes[nid]? = some node) :
    ∀ (rest : List PTG) (pidx : ℕ) (acc out : List ClosestEntry),
      (∀ j : ℕ, rest[j]? = ptgs[pidx + j]?) →
      (∀ e ∈ acc, EntryOk query maxDistance nodes ptgs e) →
      acc.Pairwise (fun a b => a.key ≤ b.key) →
      find_nodes_within_ball_ptgLoop query maxDistance node nid pidx rest acc =
        Except.ok out →
      (∀ e ∈ out, EntryOk query maxDistance nodes ptgs e) ∧
        out.Pairwise (fun a b => a.key ≤ b.key) := by
  intro rest
  induction rest with
  | nil =>
    intro pidx acc out _ hacc hsort hrun
    unfold find_nodes_within_ball_ptgLoop at hrun
    injection hrun with hrun
    subst hrun
    exact ⟨hacc, hsort⟩
  | cons de rest' ih =>
    intro pidx acc out hrest hacc hsort hrun
    have hde : ptgs[pidx]? = some de := by
      have h0 := hrest 0
      simpa using h0.symm
    unfold find_nodes_within_ball_ptgLoop at hrun
    cases hs : find_nodes_within_ball_step query maxDistance node nid pidx de acc with
    | error e =>
      simp [hs] at hrun
    | ok acc2 =>
      simp only [hs] at hrun
      obtain ⟨hmem, hsrt⟩ := find_nodes_within_ball_step_ok query maxDistance
        node nid pidx de acc acc2 hs
      refine ih (pidx + 1) acc2 out ?_ ?_ (hsrt hsort) hrun
      · intro j
        have h := hrest (j + 1)
        rw [show pidx + (j + 1) = pidx + 1 + j by omega] at h
        simpa using h
      · intro e he
        rcases hmem e he with hold | ⟨hd0, hdr, hkey, hnid, hpidx, hdd⟩
        · exact hacc e hold
        · exact ⟨hd0, hdr, hkey, node, de, by rw [hnid]; exact hnode,
            by rw [hpidx]; exact hde, hdd⟩

/-- Every entry accumulated by the outer (per-node) loop is valid, and the
accumulator stays sorted. -/
theorem find_nodes_within_ball_nodeLoop_ok (query : TPose2D) (maxDistance : ℝ)
    (ptgs : List PTG) (nodes : List TreeNode) :
    ∀ (rest : List TreeNode) (nid : ℕ) (acc out : List ClosestEntry),
      (∀ j : ℕ, rest[j]? = nodes[nid + j]?) →
      (∀ e ∈ acc, EntryOk query maxDistance nodes ptgs e) →
      acc.Pairwise (fun a b => a.key ≤ b.key) →
      find_nodes_within_ball_nodeLoop query maxDistance ptgs nid rest acc =
        Except.ok out →
      (∀ e ∈ out, EntryOk query maxDistance nodes ptgs e) ∧
        out.Pairwise (fun a b => a.key ≤ b.key) := by
  intro rest
  induction rest with
  | nil =>
    intro nid acc out _ hacc hsort hrun
    unfold find_nodes_within_ball_nodeLoop at hrun
    injection hrun with hrun
    subst hrun
    exact ⟨hacc, hsort⟩
  | cons node rest' ih =>
    intro nid acc out hrest hacc hsort hrun
    have hnode : nodes[nid]? = some node := by
      have h0 := hrest 0
      simpa using h0.symm
    unfold find_nodes_within_ball_nodeLoop at hrun
    cases hp : find_nodes_within_ball_ptgLoop query maxDistance node nid 0 ptgs acc with
    | error e =>
      simp [hp] at hrun
    | ok acc2 =>
      simp only [hp] at hrun
      obtain ⟨hmem2, hsort2⟩ := find_nodes_within_ball_ptgLoop_ok query
        maxDistance node nid nodes ptgs hnode ptgs 0 acc acc2
        (fun j => by simp) hacc hsort hp
      refine ih (nid + 1) acc2 out ?_ hmem2 hsort2 hrun
      intro j
      have h := hrest (j + 1)
      rw [show nid + (j + 1) = nid + 1 + j by omega] at h
      simpa using h

/-- The contract of the neighbor search on a successful return. -/
theorem find_nodes_within_ball_ok (tree : MotionPrimitivesTreeSE2)
    (query : TPose2D) (maxDistance : ℝ) (ptgs : List PTG)
    (lst : List ClosestEntry)
    (h : find_nodes_within_ball tree query maxDistance ptgs = Except.ok lst) :
    (∀ e ∈ lst, EntryOk query maxDistance tree.nodes ptgs e) ∧
      lst.Pairwise (fun a b => a.key ≤ b.key) := by
  unfold find_nodes_within_ball at h
  by_cases h1 : tree.nodes.isEmpty = true
  · rw [if_pos h1] at h
    exact absurd h (by simp)
  · rw [if_neg h1] at h
    by_cases h2 : ptgs.isEmpty = true
    · rw [if_pos h2] at h
      exact absurd h (by simp)
    · rw [if_neg h2] at h
      exact find_nodes_within_ball_nodeLoop_ok query maxDistance ptgs tree.nodes
        tree.nodes 0 [] lst (fun j => by simp) (by simp) (by simp) h

/-- C5: every tuple of a successful `find_nodes_within_ball` result carries
an exact PTG distance `d` with `0 < d ≤ r` — the multimap key equals `d` and
the referenced node/PTG pair's distance evaluator returned exactly
`(d, trajectory_idx)` — and the returned list is ordered by ascending `d`
(closest-first iteration); candidates whose distance query fails or whose
distance exceeds `r` never appear. -/
theorem C5_theorem (tree : MotionPrimitivesTreeSE2) (query : TPose2D)
    (r : ℝ) (ptgs : List PTG) (lst : List ClosestEntry)
    (h : find_nodes_within_ball tree query r ptgs = Except.ok lst) :
    (∀ e ∈ lst, 0 < e.dist ∧ e.dist ≤ r ∧ e.key = e.dist ∧
      ∃ node ptg, tree.nodes[e.nodeId]? = some node ∧ ptgs[e.ptgIdx]? = some ptg ∧
        ptg.distance node.state query = some (e.dist, e.trajIdx)) ∧
      lst.Pairwise (fun a b => a.key ≤ b.key) :=
  find_nodes_within_ball_ok tree query r ptgs lst h

/-! ## Error classification: only the four input sanity checks produce
`precondViolation`; everything later is an internal assertion. -/

theorem find_nodes_within_ball_step_error (query : TPose2D) (maxDistance : ℝ)
    (node : TreeNode) (nid pidx : ℕ) (de : PTG) (acc : List ClosestEntry)
    (e : PlanError)
    (h : find_nodes_within_ball_step query maxDistance node nid pidx de acc =
      Except.error e) :
    e = PlanError.assertViolation := by
  unfold find_nodes_within_ball_step at h
  by_cases h1 : de.cannotBeNearerThan node.state query maxDistance = true
  · rw [if_pos h1] at h
    exact absurd h (by simp)
  · rw [if_neg h1] at h
    cases hdist : de.distance node.state query with
    | none =>
      simp only [hdist] at h
      exact absurd h (by simp)
    | some pr =>
      obtain ⟨d, tIdx⟩ := pr
      simp only [hdist] at h
      by_cases h2 : d ≤ 0
      · rw [if_pos h2] at h
        injection h with h
        exact h.symm
      · rw [if_neg h2] at h
        by_cases h3 : maxDistance < d
        · rw [if_pos h3] at h
          exact absurd h (by simp)
        · rw [if_neg h3] at h
          exact absurd h (by simp)

theorem find_nodes_within_ball_ptgLoop_error (query : TPose2D)
    (maxDistance : ℝ) (node : TreeNode) (nid : ℕ) :
    ∀ (rest : List PTG) (pidx : ℕ) (acc : List ClosestEntry) (e : PlanError),
      find_nodes_within_ball_ptgLoop query maxDistance node nid pidx rest acc =
        Except.error e →
      e = PlanError.assertViolation := by
  intro rest
  induction rest with
  | nil =>
    intro pidx acc e h
    unfold find_nodes_within_ball_ptgLoop at h
    exact absurd h (by simp)
  | cons de rest' ih =>
    intro pidx acc e h
    unfold find_nodes_within_ball_ptgLoop at h
    cases hs : find_nodes_within_ball_step query maxDistance node nid pidx de acc with
    | error e2 =>
      simp only [hs] at h
      injection h with h
      rw [← h]
      exact find_nodes_within_ball_step_error query maxDistance node nid pidx de acc e2 hs
    | ok acc2 =>
      simp only [hs] at h
      exact ih (pidx + 1) acc2 e h

theorem find_nodes_within_ball_nodeLoop_error (query : TPose2D)
    (maxDistance : ℝ) (ptgs : List PTG) :
    ∀ (rest : List TreeNode) (nid : ℕ) (acc : List ClosestEntry) (e : PlanError),
      find_nodes_within_ball_nodeLoop query maxDistance ptgs nid rest acc =
        Except.error e →
      e = PlanError.assertViolation := by
  intro rest
  induction rest with
  | nil =>
    intro nid acc e h
    unfold find_nodes_within_ball_nodeLoop at h
    exact absurd h (by simp)
  | cons node rest' ih =>
    intro nid acc e h
    unfold find_nodes_within_ball_nodeLoop at h
    cases hp : find_nodes_within_ball_ptgLoop query maxDistance node nid 0 ptgs acc with
    | error e2 =>
      simp only [hp] at h
      injection h with h
      rw [← h]
      exact find_nodes_within_ball_ptgLoop_error query maxDistance node nid ptgs 0 acc e2 hp
    | ok acc2 =>
      simp only [hp] at h
      exact ih (nid + 1) acc2 e h

theorem find_nodes_within_ball_error (tree : MotionPrimitivesTreeSE2)
    (query : TPose2D) (maxDistance : ℝ) (ptgs : List PTG) (e : PlanError)
    (h : find_nodes_within_ball tree query maxDistance ptgs = Except.error e) :
    e = PlanError.assertViolation := by
  unfold find_nodes_within_ball at h
  by_cases h1 : tree.nodes.isEmpty = true
  · rw [if_pos h1] at h
    injection h with h
    exact h.symm
  · rw [if_neg h1] at h
    by_cases h2 : ptgs.isEmpty = true
    · rw [if_pos h2] at h
      injection h with h
      exact h.symm
    · rw [if_neg h2] at h
      exact find_nodes_within_ball_nodeLoop_error query maxDistance ptgs
        tree.nodes 0 [] e h

theorem planIteration_error (pin : PlannerInput) (searchRadius maxXY : ℝ)
    (tree : MotionPrimitivesTreeSE2) (qi : TPose2D) (e : PlanError)
    (h : planIteration pin searchRadius maxXY tree qi = Except.error e) :
    e = PlanError.assertViolation := by
  unfold planIteration at h
  cases hfn : find_nodes_within_ball tree qi searchRadius pin.ptgs with
  | error e2 =>
    simp only [hfn] at h
    injection h with h
    rw [← h]
    exact find_nodes_within_ball_error tree qi searchRadius pin.ptgs e2 hfn
  | ok cl =>
    simp only [hfn] at h
    by_cases hemp : cl.isEmpty = true
    · rw [if_pos hemp] at h
      exact absurd h (by simp)
    · rw [if_neg hemp] at h
      cases hsb : selectBest pin maxXY tree.nodes cl none with
      | none =>
        simp only [hsb] at h
        exact absurd h (by simp)
      | some ec =>
        obtain ⟨bestEdge, bestCost⟩ := ec
        simp only [hsb] at h
        exact absurd h (by simp)

theorem planLoop_error (pin : PlannerInput) (searchRadius maxXY : ℝ) :
    ∀ (samples : List TPose2D) (tree : MotionPrimitivesTreeSE2) (e : PlanError),
      planLoop pin searchRadius maxXY samples tree = Except.error e →
      e = PlanError.assertViolation := by
  intro samples
  induction samples with
  | nil =>
    intro tree e h
    unfold planLoop at h
    exact absurd h (by simp)
  | cons qi rest ih =>
    intro tree e h
    unfold planLoop at h
    cases hit : planIteration pin searchRadius maxXY tree qi with
    | error e2 =>
      simp only [hit] at h
      injection h with h
      rw [← h]
      exact planIteration_error pin searchRadius maxXY tree qi e2 hit
    | ok t2 =>
      simp only [hit] at h
      exact ih t2 e h

/-! ## C6: the precondition checks -/

/-- The PTG shared by the concrete planner scenarios below: reference
distance 5, no obstacle ever shortens a TP-distance, step solving always
succeeds at step 3, the relative pose after any segment is `(1, 0, 0)`. -/
def demoPTG : PTG :=
  { refDistance := 5
    initTPObstacleSingle := fun _ _ => 5
    updateTPObstacleSingle := fun _ _ _ _ acc => acc
    getPathStepForDist := fun _ _ _ => some 3
    getPathPose := fun _ _ _ => ⟨1, 0, 0⟩
    getPathTwist := fun _ _ _ => ⟨0, 0, 0⟩
    cannotBeNearerThan := fun _ _ _ => false
    distance := fun _ _ => some (1, 0) }

/-- The planner input of the C6 counterexample: everything sane, except
that the start pose sits exactly on `worldBboxMin.x`. -/
def cexIn : PlannerInput :=
  { stateStart := ⟨⟨0, 0, 0⟩, ⟨0, 0, 0⟩⟩
    stateGoal := ⟨⟨1 / 2, 0, 0⟩, ⟨0, 0, 0⟩⟩
    ptgs := [demoPTG]
    obstacles := []
    worldBboxMin := ⟨0, -1, -1⟩
    worldBboxMax := ⟨1, 1, 1⟩ }

/-- Parameters of the concrete planner scenarios. -/
def demoParams : Parameters := ⟨2⟩

/-- C6 (counterexample): an input whose start pose has `x` exactly equal to
`worldBboxMin.x` — inside the claimed inclusive-open box `[min, max)`, with
initialized PTGs, a non-degenerate box and a strictly interior goal — is
REJECTED: `plan` fails with `PrecondViolation`, because `within_bbox` uses
strict inequalities on both ends. -/
theorem C6_counterexample :
    cexIn.stateStart.pose.x = cexIn.worldBboxMin.x ∧
      (cexIn.worldBboxMin.x ≤ cexIn.stateStart.pose.x ∧
        cexIn.stateStart.pose.x < cexIn.worldBboxMax.x ∧
        cexIn.worldBboxMin.y ≤ cexIn.stateStart.pose.y ∧
        cexIn.stateStart.pose.y < cexIn.worldBboxMax.y ∧
        cexIn.worldBboxMin.phi ≤ cexIn.stateStart.pose.phi ∧
        cexIn.stateStart.pose.phi < cexIn.worldBboxMax.phi) ∧
      ptgsInitialized cexIn ∧
      cexIn.worldBboxMin ≠ cexIn.worldBboxMax ∧
      within_bbox cexIn.stateGoal.pose cexIn.worldBboxMax cexIn.worldBboxMin ∧
      plan cexIn demoParams [] = Except.error PlanError.precondViolation := by
  refine ⟨rfl, ?_, ?_, ?_, ?_, ?_⟩
  · refine ⟨le_rfl, ?_, ?_, ?_, ?_, ?_⟩ <;> norm_num [cexIn]
  · simp [cexIn, ptgsInitialized]
  · intro h
    have hx := congrArg TPose2D.x h
    simp [cexIn] at hx
  · unfold within_bbox
    refine ⟨?_, ?_, ?_, ?_, ?_, ?_⟩ <;> norm_num [cexIn]
  · have hstart : ¬ within_bbox cexIn.stateStart.pose cexIn.worldBboxMax
        cexIn.worldBboxMin := by
      intro hw
      have hx := hw.2.2.2.1
      simp [cexIn] at hx
    unfold plan
    rw [if_neg (not_not_intro (by simp [cexIn, ptgsInitialized]))]
    rw [if_neg (show cexIn.worldBboxMin ≠ cexIn.worldBboxMax by
      intro h
      have hx := congrArg TPose2D.x h
      simp [cexIn] at hx)]
    rw [if_pos hstart]

/-- C6 (amended): `plan(in)` checks its preconditions before touching any
state and fails with `PrecondViolation` exactly when the PTG set is
uninitialized, the bounding box is degenerate (min equals max), or the
start or goal pose lies outside the OPEN box `(worldBboxMin, worldBboxMax)`
— `within_bbox` is strict in every coordinate at BOTH ends, so a pose with
a coordinate exactly equal to `worldBboxMin` (or `worldBboxMax`) is
rejected. -/
theorem C6_theorem (pin : PlannerInput) (params : Parameters)
    (samples : List TPose2D) :
    plan pin params samples = Except.error PlanError.precondViolation ↔
      (¬ ptgsInitialized pin ∨ pin.worldBboxMin = pin.worldBboxMax ∨
        ¬ within_bbox pin.stateStart.pose pin.worldBboxMax pin.worldBboxMin ∨
        ¬ within_bbox pin.stateGoal.pose pin.worldBboxMax pin.worldBboxMin) := by
  constructor
  · intro h
    by_contra hneg
    push_neg at hneg
    obtain ⟨h1, h2, h3, h4⟩ := hneg
    unfold plan at h
    rw [if_neg (not_not_intro h1), if_neg h2, if_neg (not_not_intro h3),
      if_neg (not_not_intro h4)] at h
    simp only [] at h
    by_cases hm : maxRefDistance pin.ptgs ≤ 0
    · rw [if_pos hm] at h
      simp at h
    · rw [if_neg hm] at h
      cases hpl : planLoop pin params.initialSearchRadius
          (maxRefDistance pin.ptgs) samples ⟨[⟨pin.stateStart, 0⟩], []⟩ with
      | error e =>
        simp only [hpl] at h
        injection h with h
        have ha := planLoop_error pin params.initialSearchRadius
          (maxRefDistance pin.ptgs) samples ⟨[⟨pin.stateStart, 0⟩], []⟩ e hpl
        rw [ha] at h
        exact PlanError.noConfusion h
      | ok t =>
        simp only [hpl] at h
        exact absurd h (by simp)
  · intro h
    unfold plan
    split_ifs with h1 h2 h3 h4 <;> first | rfl | tauto

/-! ## C7: radius 0 and the success flag -/

/-- Peeling a successful `plan` call: the loop succeeded and the output is
its tree with `success = false`. -/
theorem plan_ok_elim (pin : PlannerInput) (params : Parameters)
    (samples : List TPose2D) (po : PlannerOutput)
    (h : plan pin params samples = Except.ok po) :
    ∃ t, planLoop pin params.initialSearchRadius (maxRefDistance pin.ptgs)
        samples ⟨[⟨pin.stateStart, 0⟩], []⟩ = Except.ok t ∧
      po = ⟨pin, t, false⟩ := by
  unfold plan at h
  by_cases h1 : ¬ ptgsInitialized pin
  · rw [if_pos h1] at h
    simp at h
  · rw [if_neg h1] at h
    by_cases h2 : pin.worldBboxMin = pin.worldBboxMax
    · rw [if_pos h2] at h
      simp at h
    · rw [if_neg h2] at h
      by_cases h3 : ¬ within_bbox pin.stateStart.pose pin.worldBboxMax pin.worldBboxMin
      · rw [if_pos h3] at h
        simp at h
      · rw [if_neg h3] at h
        by_cases h4 : ¬ within_bbox pin.stateGoal.pose pin.worldBboxMax pin.worldBboxMin
        · rw [if_pos h4] at h
          simp at h
        · rw [if_neg h4] at h
          simp only [] at h
          by_cases hm : maxRefDistance pin.ptgs ≤ 0
          · rw [if_pos hm] at h
            simp at h
          · rw [if_neg hm] at h
            cases hpl : planLoop pin params.initialSearchRadius
                (maxRefDistance pin.ptgs) samples ⟨[⟨pin.stateStart, 0⟩], []⟩ with
            | error e =>
              simp only [hpl] at h
              simp at h
            | ok t =>
              simp only [hpl] at h
              injection h with h
              exact ⟨t, rfl, h.symm⟩

/-- With radius 0, an iteration leaves the tree untouched: any emitted
neighbor tuple would need `0 < d ≤ 0`. -/
theorem planIteration_radius_zero (pin : PlannerInput) (maxXY : ℝ)
    (tree t2 : MotionPrimitivesTreeSE2) (qi : TPose2D)
    (h : planIteration pin 0 maxXY tree qi = Except.ok t2) : t2 = tree := by
  unfold planIteration at h
  cases hfn : find_nodes_within_ball tree qi 0 pin.ptgs with
  | error e => simp [hfn] at h
  | ok cl =>
    have hcl : cl = [] := by
      cases cl with
      | nil => rfl
      | cons a t =>
        obtain ⟨hmem, _⟩ := find_nodes_within_ball_ok tree qi 0 pin.ptgs (a :: t) hfn
        obtain ⟨hd0, hdr, _⟩ := hmem a (by simp)
        linarith
    subst hcl
    simp only [hfn] at h
    simp at h
    exact h.symm

theorem planLoop_radius_zero (pin : PlannerInput) (maxXY : ℝ) :
    ∀ (samples : List TPose2D) (tree t2 : MotionPrimitivesTreeSE2),
      planLoop pin 0 maxXY samples tree = Except.ok t2 → t2 = tree := by
  intro samples
  induction samples with
  | nil =>
    intro tree t2 h
    unfold planLoop at h
    injection h with h
    exact h.symm
  | cons qi rest ih =>
    intro tree t2 h
    unfold planLoop at h
    cases hit : planIteration pin 0 maxXY tree qi with
    | error e => simp [hit] at h
    | ok tmid =>
      simp only [hit] at h
      rw [ih tmid t2 h]
      exact planIteration_radius_zero pin maxXY tree tmid qi hit

/-- C7: when the search radius is 0, `find_nodes_within_ball` never yields
a candidate, so every iteration leaves the tree with only the root node and
no edges; moreover, for EVERY input, a returning `plan` call reports
`success = false` — the code never sets `success = true`. -/
theorem C7_theorem :
    (∀ (pin : PlannerInput) (params : Parameters) (samples : List TPose2D)
        (po : PlannerOutput),
      plan pin params samples = Except.ok po → po.success = false) ∧
      (∀ (pin : PlannerInput) (params : Parameters) (samples : List TPose2D)
          (po : PlannerOutput),
        params.initialSearchRadius = 0 →
        plan pin params samples = Except.ok po →
        po.motionTree.nodes = [⟨pin.stateStart, 0⟩] ∧
          po.motionTree.edges = []) := by
  constructor
  · intro pin params samples po h
    obtain ⟨t, _, hpo⟩ := plan_ok_elim pin params samples po h
    rw [hpo]
  · intro pin params samples po hr h
    obtain ⟨t, hpl, hpo⟩ := plan_ok_elim pin params samples po h
    rw [hr] at hpl
    have ht := planLoop_radius_zero pin (maxRefDistance pin.ptgs) samples _ t hpl
    rw [hpo, ht]
    exact ⟨rfl, rfl⟩

/-! ## C2/C3: edge invariants of the motion tree -/

theorem getD_append_lt {α : Type} (l l' : List α) (n : ℕ) (d : α)
    (h : n < l.length) : (l ++ l').getD n d = l.getD n d := by
  induction l generalizing n with
  | nil => simp at h
  | cons x xs ih =>
    cases n with
    | zero => rfl
    | succ m =>
      have hm : m < xs.length := by simpa using h
      simpa using ih m hm

theorem getD_concat_length {α : Type} (l : List α) (a d : α) :
    (l ++ [a]).getD l.length d = a := by
  induction l with
  | nil => rfl
  | cons x xs ih =>
    simp only [List.cons_append, List.length_cons, List.getD_cons_succ]
    exact ih

theorem getElem?_eq_some_getD {α : Type} (l : List α) (n : ℕ) (d : α)
    (h : n < l.length) : l[n]? = some (l.getD n d) := by
  have h1 : l[n]? = some l[n] := List.getElem?_eq_getElem h
  rw [h1, List.getD_eq_getElem?_getD, h1]
  rfl

theorem lt_length_of_getElem? {α : Type} {l : List α} {n : ℕ} {x : α}
    (h : l[n]? = some x) : n < l.length := by
  by_contra hn
  rw [List.getElem?_eq_none (le_of_not_lt hn)] at h
  simp at h

/-- The invariant carried by every edge of the motion tree: valid child,
parent and PTG references; positive PTG distance; edge cost equal to the
PTG distance; cost-to-come additivity; and strict collision clearance of
the distance against the TP-obstacle free distance at the parent. -/
def EdgeInv (pin : PlannerInput) (maxXY : ℝ) (nodes : List TreeNode)
    (ce : ℕ × MoveEdgeSE2_TPS) : Prop :=
  ce.1 < nodes.length ∧
    ce.2.parentId < nodes.length ∧
    ce.2.ptgIndex < pin.ptgs.length ∧
    0 < ce.2.ptgDist ∧
    ce.2.cost = ce.2.ptgDist ∧
    (nodes.getD ce.1 nodeDefault).cost_ =
      (nodes.getD ce.2.parentId nodeDefault).cost_ + ce.2.cost ∧
    ce.2.ptgDist < tp_obstacles_single_path ce.2.ptgPathIndex
      (localObstaclesOf pin maxXY (nodes.getD ce.2.parentId nodeDefault))
      (pin.ptgs.getD ce.2.ptgIndex ptgDefault)
      (plannerDynState (nodes.getD ce.2.parentId nodeDefault))

/-- The whole-tree invariant. -/
def TreeInv (pin : PlannerInput) (maxXY : ℝ)
    (t : MotionPrimitivesTreeSE2) : Prop :=
  ∀ ce ∈ t.edges, EdgeInv pin maxXY t.nodes ce

/-- Appending a node preserves every established edge invariant: existing
indices stay in range and their lookups are unchanged. -/
theorem EdgeInv_append (pin : PlannerInput) (maxXY : ℝ)
    (nodes : List TreeNode) (n : TreeNode) (ce : ℕ × MoveEdgeSE2_TPS)
    (h : EdgeInv pin maxXY nodes ce) : EdgeInv pin maxXY (nodes ++ [n]) ce := by
  obtain ⟨h1, h2, h3, h4, h5, h6, h7⟩ := h
  have g1 := getD_append_lt nodes [n] ce.1 nodeDefault h1
  have g2 := getD_append_lt nodes [n] ce.2.parentId nodeDefault h2
  refine ⟨?_, ?_, h3, h4, h5, ?_, ?_⟩
  · simp only [List.length_append]
    omega
  · simp only [List.length_append]
    omega
  · rw [g1, g2]
    exact h6
  · rw [g2]
    exact h7

/-- What a successful candidate evaluation guarantees: the produced edge
copies the tuple's indices and distance, its cost is its PTG distance, the
total cost is the parent's cost-to-come plus the edge cost, and the PTG
distance is strictly below the TP-obstacle free distance at the parent. -/
theorem evalCandidate_ok (pin : PlannerInput) (maxXY : ℝ)
    (nodes : List TreeNode) (ent : ClosestEntry) (e : MoveEdgeSE2_TPS) (c : ℝ)
    (h : evalCandidate pin maxXY nodes ent = some (e, c)) :
    e.parentId = ent.nodeId ∧ e.ptgIndex = ent.ptgIdx ∧
      e.ptgPathIndex = ent.trajIdx ∧ e.ptgDist = ent.dist ∧
      e.cost = e.ptgDist ∧
      c = (nodes.getD ent.nodeId nodeDefault).cost_ + e.cost ∧
      e.ptgDist < tp_obstacles_single_path ent.trajIdx
        (localObstaclesOf pin maxXY (nodes.getD ent.nodeId nodeDefault))
        (pin.ptgs.getD ent.ptgIdx ptgDefault)
        (plannerDynState (nodes.getD ent.nodeId nodeDefault)) := by
  unfold evalCandidate at h
  simp only [] at h
  by_cases h1 : tp_obstacles_single_path ent.trajIdx
      (localObstaclesOf pin maxXY (nodes.getD ent.nodeId nodeDefault))
      (pin.ptgs.getD ent.ptgIdx ptgDefault)
      (plannerDynState (nodes.getD ent.nodeId nodeDefault)) ≤ ent.dist
  · rw [if_pos h1] at h
    exact absurd h (by simp)
  · rw [if_neg h1] at h
    cases hst : (pin.ptgs.getD ent.ptgIdx ptgDefault).getPathStepForDist
        (plannerDynState (nodes.getD ent.nodeId nodeDefault)) ent.trajIdx
        ent.dist with
    | none =>
      simp only [hst] at h
      exact absurd h (by simp)
    | some st =>
      simp only [hst] at h
      injection h with h
      rw [Prod.mk.injEq] at h
      obtain ⟨he, hc⟩ := h
      subst he
      subst hc
      exact ⟨rfl, rfl, rfl, rfl, rfl, rfl, not_le.1 h1⟩

/-- The property tracked for the running best candidate. -/
def BestOk (pin : PlannerInput) (maxXY : ℝ) (nodes : List TreeNode)
    (e : MoveEdgeSE2_TPS) (c : ℝ) : Prop :=
  e.parentId < nodes.length ∧
    e.ptgIndex < pin.ptgs.length ∧
    0 < e.ptgDist ∧
    e.cost = e.ptgDist ∧
    c = (nodes.getD e.parentId nodeDefault).cost_ + e.cost ∧
    e.ptgDist < tp_obstacles_single_path e.ptgPathIndex
      (localObstaclesOf pin maxXY (nodes.getD e.parentId nodeDefault))
      (pin.ptgs.getD e.ptgIndex ptgDefault)
      (plannerDynState (nodes.getD e.parentId nodeDefault))

theorem evalCandidate_BestOk (pin : PlannerInput) (maxXY : ℝ)
    (nodes : List TreeNode) (query : TPose2D) (r : ℝ) (ent : ClosestEntry)
    (e : MoveEdgeSE2_TPS) (c : ℝ)
    (hent : EntryOk query r nodes pin.ptgs ent)
    (h : evalCandidate pin maxXY nodes ent = some (e, c)) :
    BestOk pin maxXY nodes e c := by
  obtain ⟨hp, hpi, hppi, hpd, hcost, hctot, hfree⟩ :=
    evalCandidate_ok pin maxXY nodes ent e c h
  obtain ⟨hd0, hdr, hkey, node, ptg, hn, hptg, hdist⟩ := hent
  have hnlen : ent.nodeId < nodes.length := lt_length_of_getElem? hn
  have hplen : ent.ptgIdx < pin.ptgs.length := lt_length_of_getElem? hptg
  refine ⟨?_, ?_, ?_, hcost, ?_, ?_⟩
  · show e.parentId < nodes.length
    rw [hp]
    exact hnlen
  · show e.ptgIndex < pin.ptgs.length
    rw [hpi]
    exact hplen
  · show 0 < e.ptgDist
    rw [hpd]
    exact hd0
  · show c = (nodes.getD e.parentId nodeDefault).cost_ + e.cost
    rw [hp]
    exact hctot
  · show e.ptgDist < tp_obstacles_single_path e.ptgPathIndex
      (localObstaclesOf pin maxXY (nodes.getD e.parentId nodeDefault))
      (pin.ptgs.getD e.ptgIndex ptgDefault)
      (plannerDynState (nodes.getD e.parentId nodeDefault))
    rw [hp, hpi, hppi]
    exact hfree

theorem selectBest_ok (pin : PlannerInput) (maxXY : ℝ)
    (nodes : List TreeNode) (query : TPose2D) (r : ℝ) :
    ∀ (entries : List ClosestEntry) (best : Option (MoveEdgeSE2_TPS × ℝ))
      (oute : MoveEdgeSE2_TPS) (outc : ℝ),
      (∀ ent ∈ entries, EntryOk query r nodes pin.ptgs ent) →
      (∀ be bc, best = some (be, bc) → BestOk pin maxXY nodes be bc) →
      selectBest pin maxXY nodes entries best = some (oute, outc) →
      BestOk pin maxXY nodes oute outc := by
  intro entries
  induction entries with
  | nil =>
    intro best oute outc _ hbest hrun
    unfold selectBest at hrun
    exact hbest oute outc hrun
  | cons ent rest ih =>
    intro best oute outc hents hbest hrun
    unfold selectBest at hrun
    cases hev : evalCandidate pin maxXY nodes ent with
    | none =>
      simp only [hev] at hrun
      exact ih best oute outc (fun x hx => hents x (List.mem_cons_of_mem _ hx))
        hbest hrun
    | some ec =>
      obtain ⟨e, c⟩ := ec
      have hnew : BestOk pin maxXY nodes e c :=
        evalCandidate_BestOk pin maxXY nodes query r ent e c
          (hents ent (List.mem_cons_self _ _)) hev
      cases best with
      | none =>
        simp only [hev] at hrun
        refine ih (some (e, c)) oute outc
          (fun x hx => hents x (List.mem_cons_of_mem _ hx)) ?_ hrun
        intro be bc hb
        injection hb with hb
        rw [Prod.mk.injEq] at hb
        rw [← hb.1, ← hb.2]
        exact hnew
      | some bp =>
        obtain ⟨be0, bc0⟩ := bp
        simp only [hev] at hrun
        by_cases hlt : c < bc0
        · rw [if_pos hlt] at hrun
          refine ih (some (e, c)) oute outc
            (fun x hx => hents x (List.mem_cons_of_mem _ hx)) ?_ hrun
          intro be bc hb
          injection hb with hb
          rw [Prod.mk.injEq] at hb
          rw [← hb.1, ← hb.2]
          exact hnew
        · rw [if_neg hlt] at hrun
          refine ih (some (be0, bc0)) oute outc
            (fun x hx => hents x (List.mem_cons_of_mem _ hx)) ?_ hrun
          intro be bc hb
          injection hb with hb
          rw [Prod.mk.injEq] at hb
          rw [← hb.1, ← hb.2]
          exact hbest be0 bc0 rfl

/-- One iteration preserves the tree invariant: a surviving candidate has
passed the collision filter, and the inserted child's cost-to-come is the
parent's plus the edge cost. -/
theorem planIteration_TreeInv (pin : PlannerInput) (r maxXY : ℝ)
    (tree t2 : MotionPrimitivesTreeSE2) (qi : TPose2D)
    (hinv : TreeInv pin maxXY tree)
    (h : planIteration pin r maxXY tree qi = Except.ok t2) :
    TreeInv pin maxXY t2 := by
  unfold planIteration at h
  cases hfn : find_nodes_within_ball tree qi r pin.ptgs with
  | error e => simp [hfn] at h
  | ok cl =>
    simp only [hfn] at h
    by_cases hemp : cl.isEmpty = true
    · rw [if_pos hemp] at h
      injection h with h
      rw [← h]
      exact hinv
    · rw [if_neg hemp] at h
      cases hsb : selectBest pin maxXY tree.nodes cl none with
      | none =>
        simp only [hsb] at h
        injection h with h
        rw [← h]
        exact hinv
      | some ec =>
        obtain ⟨bestEdge, bestCost⟩ := ec
        simp only [hsb] at h
        injection h with h
        rw [← h]
        obtain ⟨hmem, _⟩ := find_nodes_within_ball_ok tree qi r pin.ptgs cl hfn
        obtain ⟨hb1, hb2, hb3, hb4, hb5, hb6⟩ :=
          selectBest_ok pin maxXY tree.nodes qi r cl none bestEdge bestCost
            hmem (fun be bc hb => by simp at hb) hsb
        intro ce hce
        simp only [insert_node_and_edge] at hce
        rcases List.mem_append.1 hce with hold | hnewm
        · exact EdgeInv_append pin maxXY tree.nodes _ ce (hinv ce hold)
        · have hce2 : ce = (tree.nodes.length, bestEdge) := by simpa using hnewm
          subst hce2
          unfold EdgeInv insert_node_and_edge
          simp only []
          have gchild :
              (tree.nodes ++ [(⟨bestEdge.stateTo, bestCost⟩ : TreeNode)]).getD
                tree.nodes.length nodeDefault =
                (⟨bestEdge.stateTo, bestCost⟩ : TreeNode) :=
            getD_concat_length _ _ _
          have gparent := getD_append_lt tree.nodes
            [(⟨bestEdge.stateTo, bestCost⟩ : TreeNode)] bestEdge.parentId
            nodeDefault hb1
          refine ⟨?_, ?_, hb2, hb3, hb4, ?_, ?_⟩
          · simp only [List.length_append, List.length_cons, List.length_nil]
            omega
          · simp only [List.length_append, List.length_cons, List.length_nil]
            omega
          · rw [gchild, gparent]
            exact hb5
          · rw [gparent]
            exact hb6

theorem planLoop_TreeInv (pin : PlannerInput) (r maxXY : ℝ) :
    ∀ (samples : List TPose2D) (tree t2 : MotionPrimitivesTreeSE2),
      TreeInv pin maxXY tree →
      planLoop pin r maxXY samples tree = Except.ok t2 →
      TreeInv pin maxXY t2 := by
  intro samples
  induction samples with
  | nil =>
    intro tree t2 hinv h
    unfold planLoop at h
    injection h with h
    rw [← h]
    exact hinv
  | cons qi rest ih =>
    intro tree t2 hinv h
    unfold planLoop at h
    cases hit : planIteration pin r maxXY tree qi with
    | error e => simp [hit] at h
    | ok tmid =>
      simp only [hit] at h
      exact ih tmid t2 (planIteration_TreeInv pin r maxXY tree tmid qi hinv hit) h

/-- The invariant holds for the tree a successful `plan` call returns. -/
theorem plan_TreeInv (pin : PlannerInput) (params : Parameters)
    (samples : List TPose2D) (po : PlannerOutput)
    (h : plan pin params samples = Except.ok po) :
    TreeInv pin (maxRefDistance pin.ptgs) po.motionTree := by
  obtain ⟨t, hpl, hpo⟩ := plan_ok_elim pin params samples po h
  have h0 : TreeInv pin (maxRefDistance pin.ptgs) ⟨[⟨pin.stateStart, 0⟩], []⟩ :=
    fun ce hce => absurd hce (by simp)
  have ht := planLoop_TreeInv pin params.initialSearchRadius
    (maxRefDistance pin.ptgs) samples _ t h0 hpl
  rw [hpo]
  exact ht

/-- C2: every edge the planner inserts into the motion tree has a PTG
distance `d` with `0 < d` that is STRICTLY below the TP-obstacle free
distance computed along the edge's trajectory index over the parent node's
local obstacle set (square-clipped at `MAX_XY_DIST`) with the parent's
dynamic state; candidates with `d ≥ freeDistance` are rejected and never
inserted. -/
theorem C2_theorem (pin : PlannerInput) (params : Parameters)
    (samples : List TPose2D) (po : PlannerOutput)
    (h : plan pin params samples = Except.ok po) :
    ∀ ce ∈ po.motionTree.edges,
      ∃ parent ptg, po.motionTree.nodes[ce.2.parentId]? = some parent ∧
        pin.ptgs[ce.2.ptgIndex]? = some ptg ∧ 0 < ce.2.ptgDist ∧
        ce.2.ptgDist < tp_obstacles_single_path ce.2.ptgPathIndex
          (localObstaclesOf pin (maxRefDistance pin.ptgs) parent) ptg
          (plannerDynState parent) := by
  intro ce hce
  obtain ⟨h1, h2, h3, h4, h5, h6, h7⟩ := plan_TreeInv pin params samples po h ce hce
  exact ⟨po.motionTree.nodes.getD ce.2.parentId nodeDefault,
    pin.ptgs.getD ce.2.ptgIndex ptgDefault,
    getElem?_eq_some_getD _ _ _ h2, getElem?_eq_some_getD _ _ _ h3, h4, h7⟩

/-- C3: after every insertion (equivalently: in the tree of every
successful run, of any length), every edge (parent `p` → child `c`)
satisfies cost-to-come(`c`) = cost-to-come(`p`) + edge cost, the edge cost
equals the edge's PTG distance `d`, and `cost_path_segment` returns
`edge.ptgDist`. -/
theorem C3_theorem (pin : PlannerInput) (params : Parameters)
    (samples : List TPose2D) (po : PlannerOutput)
    (h : plan pin params samples = Except.ok po) :
    (∀ ce ∈ po.motionTree.edges,
      ∃ child parent, po.motionTree.nodes[ce.1]? = some child ∧
        po.motionTree.nodes[ce.2.parentId]? = some parent ∧
        child.cost_ = parent.cost_ + ce.2.cost ∧
        ce.2.cost = ce.2.ptgDist) ∧
      ∀ e : MoveEdgeSE2_TPS, cost_path_segment e = e.ptgDist := by
  constructor
  · intro ce hce
    obtain ⟨h1, h2, h3, h4, h5, h6, h7⟩ := plan_TreeInv pin params samples po h ce hce
    exact ⟨po.motionTree.nodes.getD ce.1 nodeDefault,
      po.motionTree.nodes.getD ce.2.parentId nodeDefault,
      getElem?_eq_some_getD _ _ _ h1, getElem?_eq_some_getD _ _ _ h2, h6, h5⟩
  · intro e
    rfl

/-! ## C8: the local-obstacle cache -/

/-- The code's local-frame transformation `(-asSeenFrom).composePoint`
coincides with the direct world-to-local change of frame. -/
theorem composePoint_negPose (pose : TPose2D) (g : TPoint2D) :
    composePoint (negPose pose) g.x g.y = worldToLocal pose g := by
  unfold composePoint negPose worldToLocal
  simp only [TPoint2D.mk.injEq]
  constructor
  · rw [Real.cos_neg, Real.sin_neg]
    ring
  · rw [Real.cos_neg, Real.sin_neg]
    ring

/-- `transform_pc_square_clipping` returns exactly the input points whose
per-axis offsets satisfy `|Δx| ≤ MAX` and `|Δy| ≤ MAX`, each transformed
into the local frame of `asSeenFrom`, in order. -/
theorem transform_pc_square_clipping_eq (inMap : List TPoint2D)
    (pose : TPose2D) (maxD : ℝ) :
    transform_pc_square_clipping inMap pose maxD =
      (inMap.filter (fun g =>
        decide (|g.x - pose.x| ≤ maxD ∧ |g.y - pose.y| ≤ maxD))).map
        (worldToLocal pose) := by
  induction inMap with
  | nil => rfl
  | cons g rest ih =>
    unfold transform_pc_square_clipping
    by_cases hc : maxD < |g.x - pose.x| ∨ maxD < |g.y - pose.y|
    · have hnot : ¬((fun g : TPoint2D =>
          decide (|g.x - pose.x| ≤ maxD ∧ |g.y - pose.y| ≤ maxD)) g = true) := by
        simp only [decide_eq_true_eq]
        intro hcontra
        rcases hc with hc | hc
        · exact absurd hcontra.1 (not_le.2 hc)
        · exact absurd hcontra.2 (not_le.2 hc)
      rw [if_pos hc, ih, List.filter_cons, if_neg hnot]
    · have hyes : ((fun g : TPoint2D =>
          decide (|g.x - pose.x| ≤ maxD ∧ |g.y - pose.y| ≤ maxD)) g = true) := by
        simp only [decide_eq_true_eq]
        push_neg at hc
        exact hc
      rw [if_neg hc, ih, List.filter_cons, if_pos hyes, List.map_cons,
        composePoint_negPose]

/-- C8: `cached_local_obstacles` reuses a cached entry IF AND ONLY IF one
is stored for the node and its stored pose equals the node's current pose
(first two conjuncts: hit returns the cached points and leaves the cache
unchanged; a missing or stale entry recomputes and stores); and the
recomputed view contains exactly the global points with per-axis offsets
`|Δx| ≤ MAX_XY_DIST` and `|Δy| ≤ MAX_XY_DIST` from the node pose,
transformed into the node's local frame. -/
theorem C8_theorem (tree : MotionPrimitivesTreeSE2)
    (cache : ℕ → Option LocalObstaclesInfo) (nodeID : ℕ)
    (globalObstacles : List TPoint2D) (MAX_XY_DIST : ℝ) :
    (∀ loc, cache nodeID = some loc →
      loc.globalNodePose = (tree.nodes.getD nodeID nodeDefault).state.pose →
      cached_local_obstacles tree cache nodeID globalObstacles MAX_XY_DIST =
        (loc.obs, cache)) ∧
      ((cache nodeID = none ∨
          ∀ loc, cache nodeID = some loc →
            loc.globalNodePose ≠ (tree.nodes.getD nodeID nodeDefault).state.pose) →
        cached_local_obstacles tree cache nodeID globalObstacles MAX_XY_DIST =
          (transform_pc_square_clipping globalObstacles
              (tree.nodes.getD nodeID nodeDefault).state.pose MAX_XY_DIST,
            Function.update cache nodeID
              (some ⟨(tree.nodes.getD nodeID nodeDefault).state.pose,
                transform_pc_square_clipping globalObstacles
                  (tree.nodes.getD nodeID nodeDefault).state.pose MAX_XY_DIST⟩))) ∧
      transform_pc_square_clipping globalObstacles
          (tree.nodes.getD nodeID nodeDefault).state.pose MAX_XY_DIST =
        (globalObstacles.filter (fun g =>
          decide (|g.x - (tree.nodes.getD nodeID nodeDefault).state.pose.x| ≤ MAX_XY_DIST ∧
            |g.y - (tree.nodes.getD nodeID nodeDefault).state.pose.y| ≤ MAX_XY_DIST))).map
          (worldToLocal (tree.nodes.getD nodeID nodeDefault).state.pose) := by
  refine ⟨?_, ?_, transform_pc_square_clipping_eq _ _ _⟩
  · intro loc hloc hpose
    unfold cached_local_obstacles
    simp only [hloc]
    rw [if_pos hpose]
  · intro hcase
    unfold cached_local_obstacles
    cases hc : cache nodeID with
    | none => rfl
    | some loc =>
      rcases hcase with hnone | hall
      · rw [hc] at hnone
        exact absurd hnone (by simp)
      · simp only []
        rw [if_neg (hall loc hc)]

/-- Concrete tree of the C8 witness: one node at the origin pose. -/
def c8tree : MotionPrimitivesTreeSE2 := ⟨[⟨⟨⟨0, 0, 0⟩, ⟨0, 0, 0⟩⟩, 0⟩], []⟩

/-- Concrete cache of the C8 witness: node 0 cached at the origin pose. -/
def c8cache : ℕ → Option LocalObstaclesInfo := fun n =>
  if n = 0 then some ⟨⟨0, 0, 0⟩, [⟨5, 5⟩]⟩ else none

/-- C8 (witness): at the concrete cache whose stored pose matches, the call
is a pure cache hit; and the clipping transform at the origin keeps exactly
the in-square point. -/
theorem C8_witness :
    cached_local_obstacles c8tree c8cache 0 [⟨1, 1⟩] 2 = ([⟨5, 5⟩], c8cache) ∧
      transform_pc_square_clipping [⟨1, 1⟩] ⟨0, 0, 0⟩ 2 =
        (([⟨1, 1⟩] : List TPoint2D).filter (fun g =>
          decide (|g.x - (0:ℝ)| ≤ 2 ∧ |g.y - (0:ℝ)| ≤ 2))).map
          (worldToLocal ⟨0, 0, 0⟩) := by
  constructor
  · have h := (C8_theorem c8tree c8cache 0 [⟨1, 1⟩] 2).1 ⟨⟨0, 0, 0⟩, [⟨5, 5⟩]⟩
      (by simp [c8cache]) rfl
    exact h
  · have h := (C8_theorem c8tree c8cache 0 [⟨1, 1⟩] 2).2.2
    simpa [c8tree, nodeDefault] using h

/-! ## A concrete planner run for the witnesses -/

/-- Start state of the concrete run. -/
def demoStart : SE2_KinState := ⟨⟨0, 0, 0⟩, ⟨0, 0, 0⟩⟩

/-- Planner input of the concrete run: one PTG, no obstacles, both states
strictly inside the box. -/
def demoIn : PlannerInput :=
  { stateStart := demoStart
    stateGoal := ⟨⟨1 / 2, 0, 0⟩, ⟨0, 0, 0⟩⟩
    ptgs := [demoPTG]
    obstacles := []
    worldBboxMin := ⟨-1, -1, -4⟩
    worldBboxMax := ⟨1, 1, 4⟩ }

/-- The single sampled pose of the concrete run. -/
def qDemo : TPose2D := ⟨1 / 2, 1 / 2, 0⟩

/-- The initial tree of the concrete run. -/
def demoTree0 : MotionPrimitivesTreeSE2 := ⟨[⟨demoStart, 0⟩], []⟩

/-- The neighbor tuple the concrete run emits. -/
def demoEntry : ClosestEntry := ⟨1, 0, 0, 0, 1⟩

/-- The child state the concrete run reconstructs. -/
def demoStateTo : SE2_KinState := ⟨⟨1, 0, 0⟩, ⟨0, 0, 0⟩⟩

/-- The edge the concrete run inserts. -/
def demoEdge : MoveEdgeSE2_TPS :=
  { parentId := 0
    ptgDist := 1
    ptgIndex := 0
    ptgPathIndex := 0
    ptgSpeedScale := 1
    stateFrom := demoStart
    stateTo := demoStateTo
    cost := 1 }

/-- The output of the concrete run. -/
def demoPO : PlannerOutput :=
  { originalInput := demoIn
    motionTree := ⟨[⟨demoStart, 0⟩, ⟨demoStateTo, 1⟩], [(1, demoEdge)]⟩
    success := false }

theorem demo_maxRef : maxRefDistance demoIn.ptgs = 5 := by
  show max (0 : ℝ) 5 = 5
  exact max_eq_right (by norm_num)

theorem demo_fnwb :
    find_nodes_within_ball demoTree0 qDemo 2 demoIn.ptgs =
      Except.ok [demoEntry] := by
  unfold find_nodes_within_ball
  rw [if_neg (by simp [demoTree0]), if_neg (by simp [demoIn])]
  show find_nodes_within_ball_nodeLoop qDemo 2 demoIn.ptgs 0 [⟨demoStart, 0⟩] [] =
    Except.ok [demoEntry]
  unfold find_nodes_within_ball_nodeLoop
  have hstep : find_nodes_within_ball_step qDemo 2 ⟨demoStart, 0⟩ 0 0 demoPTG [] =
      Except.ok [demoEntry] := by
    unfold find_nodes_within_ball_step
    rw [if_neg (by simp [demoPTG])]
    show (if (1 : ℝ) ≤ 0 then Except.error PlanError.assertViolation
      else if (2 : ℝ) < 1 then Except.ok []
      else Except.ok (multimapInsert ⟨1, 0, 0, 0, 1⟩ [])) = Except.ok [demoEntry]
    rw [if_neg (by norm_num), if_neg (by norm_num)]
    rfl
  have hptg : find_nodes_within_ball_ptgLoop qDemo 2 ⟨demoStart, 0⟩ 0 0
      demoIn.ptgs [] = Except.ok [demoEntry] := by
    show find_nodes_within_ball_ptgLoop qDemo 2 ⟨demoStart, 0⟩ 0 0 [demoPTG] [] =
      Except.ok [demoEntry]
    unfold find_nodes_within_ball_ptgLoop
    simp only [hstep]
    rfl
  simp only [hptg]
  rfl

theorem demo_eval :
    evalCandidate demoIn (maxRefDistance demoIn.ptgs) [⟨demoStart, 0⟩] demoEntry =
      some (demoEdge, 1) := by
  unfold evalCandidate
  simp only []
  have hfree : tp_obstacles_single_path demoEntry.trajIdx
      (localObstaclesOf demoIn (maxRefDistance demoIn.ptgs)
        (([⟨demoStart, 0⟩] : List TreeNode).getD demoEntry.nodeId nodeDefault))
      (demoIn.ptgs.getD demoEntry.ptgIdx ptgDefault)
      (plannerDynState (([⟨demoStart, 0⟩] : List TreeNode).getD demoEntry.nodeId
        nodeDefault)) = 5 := rfl
  rw [hfree]
  rw [if_neg (show ¬((5 : ℝ) ≤ demoEntry.dist) by norm_num [demoEntry])]
  show some _ = some (demoEdge, 1)
  have hpose : composePose demoStart.pose ⟨1, 0, 0⟩ = ⟨1, 0, 0⟩ := by
    unfold composePose demoStart
    simp only [TPose2D.mk.injEq]
    refine ⟨?_, ?_, ?_⟩
    · rw [Real.cos_zero, Real.sin_zero]
      norm_num
    · rw [Real.cos_zero, Real.sin_zero]
      norm_num
    · rw [show (0 : ℝ) + 0 = 0 by norm_num, wrapToPi_zero]
  have htw : rotateTwist ⟨0, 0, 0⟩ demoStart.pose.phi = ⟨0, 0, 0⟩ := by
    unfold rotateTwist
    simp only [TTwist2D.mk.injEq]
    norm_num
  show some (({ parentId := 0
                ptgDist := 1
                ptgIndex := 0
                ptgPathIndex := 0
                ptgSpeedScale := 1
                stateFrom := demoStart
                stateTo := ⟨composePose demoStart.pose ⟨1, 0, 0⟩,
                  rotateTwist ⟨0, 0, 0⟩ demoStart.pose.phi⟩
                cost := 1 } : MoveEdgeSE2_TPS), (0 : ℝ) + 1) =
    some (demoEdge, 1)
  rw [hpose, htw]
  norm_num [demoEdge, demoStateTo, demoStart]

theorem demo_iteration :
    planIteration demoIn 2 (maxRefDistance demoIn.ptgs) demoTree0 qDemo =
      Except.ok demoPO.motionTree := by
  unfold planIteration
  simp only [demo_fnwb]
  rw [if_neg (by simp)]
  have hsb : selectBest demoIn (maxRefDistance demoIn.ptgs) demoTree0.nodes
      [demoEntry] none = some (demoEdge, 1) := by
    show selectBest demoIn (maxRefDistance demoIn.ptgs) [⟨demoStart, 0⟩]
      [demoEntry] none = some (demoEdge, 1)
    unfold selectBest
    simp only [demo_eval]
    rfl
  simp only [hsb]
  rfl

theorem demo_plan :
    plan demoIn demoParams [qDemo] = Except.ok demoPO := by
  unfold plan
  rw [if_neg (not_not_intro (show ptgsInitialized demoIn by
    simp [demoIn, ptgsInitialized]))]
  rw [if_neg (show demoIn.worldBboxMin ≠ demoIn.worldBboxMax by
    intro h
    have hx := congrArg TPose2D.x h
    norm_num [demoIn] at hx)]
  rw [if_neg (not_not_intro (show within_bbox demoIn.stateStart.pose
      demoIn.worldBboxMax demoIn.worldBboxMin by
    refine ⟨?_, ?_, ?_, ?_, ?_, ?_⟩ <;> norm_num [demoIn, demoStart]))]
  rw [if_neg (not_not_intro (show within_bbox demoIn.stateGoal.pose
      demoIn.worldBboxMax demoIn.worldBboxMin by
    refine ⟨?_, ?_, ?_, ?_, ?_, ?_⟩ <;> norm_num [demoIn]))]
  simp only []
  rw [if_neg (show ¬(maxRefDistance demoIn.ptgs ≤ 0) by
    rw [demo_maxRef]; norm_num)]
  have hloop : planLoop demoIn demoParams.initialSearchRadius
      (maxRefDistance demoIn.ptgs) [qDemo] ⟨[⟨demoIn.stateStart, 0⟩], []⟩ =
      Except.ok demoPO.motionTree := by
    unfold planLoop
    have hit : planIteration demoIn demoParams.initialSearchRadius
        (maxRefDistance demoIn.ptgs) ⟨[⟨demoIn.stateStart, 0⟩], []⟩ qDemo =
        Except.ok demoPO.motionTree := demo_iteration
    simp only [hit]
    rfl
  simp only [hloop]
  rfl

/-- C2 (witness): in the concrete run, the inserted edge has `d = 1 > 0`,
its parent is the root, and `1` is strictly below the free distance `5`. -/
theorem C2_witness :
    ∃ parent ptg,
      demoPO.motionTree.nodes[demoEdge.parentId]? = some parent ∧
        demoIn.ptgs[demoEdge.ptgIndex]? = some ptg ∧ 0 < demoEdge.ptgDist ∧
        demoEdge.ptgDist < tp_obstacles_single_path demoEdge.ptgPathIndex
          (localObstaclesOf demoIn (maxRefDistance demoIn.ptgs) parent) ptg
          (plannerDynState parent) := by
  have h := C2_theorem demoIn demoParams [qDemo] demoPO demo_plan
    (1, demoEdge) (by simp [demoPO])
  exact h

/-- C3 (witness): in the concrete run, the child's cost-to-come is the
root's `0` plus the edge cost `1`, and the edge cost is the PTG distance. -/
theorem C3_witness :
    (∃ child parent,
      demoPO.motionTree.nodes[(1 : ℕ)]? = some child ∧
        demoPO.motionTree.nodes[demoEdge.parentId]? = some parent ∧
        child.cost_ = parent.cost_ + demoEdge.cost ∧
        demoEdge.cost = demoEdge.ptgDist) ∧
      cost_path_segment demoEdge = demoEdge.ptgDist := by
  have h := C3_theorem demoIn demoParams [qDemo] demoPO demo_plan
  exact ⟨h.1 (1, demoEdge) (by simp [demoPO]), h.2 demoEdge⟩

/-- C5 (witness): the single emitted tuple of the concrete neighbor query
has exact distance `1 ∈ (0, 2]`, and the singleton list is sorted. -/
theorem C5_witness :
    (0 < demoEntry.dist ∧ demoEntry.dist ≤ 2 ∧ demoEntry.key = demoEntry.dist ∧
      ∃ node ptg, demoTree0.nodes[demoEntry.nodeId]? = some node ∧
        demoIn.ptgs[demoEntry.ptgIdx]? = some ptg ∧
        ptg.distance node.state qDemo = some (demoEntry.dist, demoEntry.trajIdx)) ∧
      ([demoEntry] : List ClosestEntry).Pairwise (fun a b => a.key ≤ b.key) := by
  have h := C5_theorem demoTree0 qDemo 2 demoIn.ptgs [demoEntry] demo_fnwb
  exact ⟨h.1 demoEntry (by simp), h.2⟩

/-- Parameters with zero search radius, for the C7 witness run. -/
def demoParams0 : Parameters := ⟨0⟩

/-- Output of the zero-radius run: root-only tree, no success. -/
def demoPO0 : PlannerOutput :=
  { originalInput := demoIn
    motionTree := ⟨[⟨demoIn.stateStart, 0⟩], []⟩
    success := false }

theorem demo_fnwb0 :
    find_nodes_within_ball ⟨[⟨demoIn.stateStart, 0⟩], []⟩ qDemo 0 demoIn.ptgs =
      Except.ok [] := by
  unfold find_nodes_within_ball
  rw [if_neg (by simp), if_neg (by simp [demoIn])]
  show find_nodes_within_ball_nodeLoop qDemo 0 demoIn.ptgs 0
    [⟨demoIn.stateStart, 0⟩] [] = Except.ok []
  unfold find_nodes_within_ball_nodeLoop
  have hstep : find_nodes_within_ball_step qDemo 0 ⟨demoIn.stateStart, 0⟩ 0 0
      demoPTG [] = Except.ok [] := by
    unfold find_nodes_within_ball_step
    rw [if_neg (by simp [demoPTG])]
    show (if (1 : ℝ) ≤ 0 then Except.error PlanError.assertViolation
      else if (0 : ℝ) < 1 then Except.ok []
      else Except.ok (multimapInsert ⟨1, 0, 0, 0, 1⟩ [])) = Except.ok []
    rw [if_neg (by norm_num), if_pos (by norm_num)]
  have hptg : find_nodes_within_ball_ptgLoop qDemo 0 ⟨demoIn.stateStart, 0⟩ 0 0
      demoIn.ptgs [] = Except.ok [] := by
    show find_nodes_within_ball_ptgLoop qDemo 0 ⟨demoIn.stateStart, 0⟩ 0 0
      [demoPTG] [] = Except.ok []
    unfold find_nodes_within_ball_ptgLoop
    simp only [hstep]
    rfl
  simp only [hptg]
  rfl

theorem demo_plan0 :
    plan demoIn demoParams0 [qDemo] = Except.ok demoPO0 := by
  unfold plan
  rw [if_neg (not_not_intro (show ptgsInitialized demoIn by
    simp [demoIn, ptgsInitialized]))]
  rw [if_neg (show demoIn.worldBboxMin ≠ demoIn.worldBboxMax by
    intro h
    have hx := congrArg TPose2D.x h
    norm_num [demoIn] at hx)]
  rw [if_neg (not_not_intro (show within_bbox demoIn.stateStart.pose
      demoIn.worldBboxMax demoIn.worldBboxMin by
    refine ⟨?_, ?_, ?_, ?_, ?_, ?_⟩ <;> norm_num [demoIn, demoStart]))]
  rw [if_neg (not_not_intro (show within_bbox demoIn.stateGoal.pose
      demoIn.worldBboxMax demoIn.worldBboxMin by
    refine ⟨?_, ?_, ?_, ?_, ?_, ?_⟩ <;> norm_num [demoIn]))]
  simp only []
  rw [if_neg (show ¬(maxRefDistance demoIn.ptgs ≤ 0) by
    rw [demo_maxRef]; norm_num)]
  have hit : planIteration demoIn demoParams0.initialSearchRadius
      (maxRefDistance demoIn.ptgs) ⟨[⟨demoIn.stateStart, 0⟩], []⟩ qDemo =
      Except.ok ⟨[⟨demoIn.stateStart, 0⟩], []⟩ := by
    unfold planIteration
    have h0 : demoParams0.initialSearchRadius = (0 : ℝ) := rfl
    rw [h0]
    simp only [demo_fnwb0]
    rfl
  have hloop : planLoop demoIn demoParams0.initialSearchRadius
      (maxRefDistance demoIn.ptgs) [qDemo] ⟨[⟨demoIn.stateStart, 0⟩], []⟩ =
      Except.ok ⟨[⟨demoIn.stateStart, 0⟩], []⟩ := by
    unfold planLoop
    simp only [hit]
    rfl
  simp only [hloop]
  rfl

/-- C7 (witness): the zero-radius concrete run returns the root-only tree
with `success = false`. -/
theorem C7_witness :
    demoPO0.success = false ∧
      demoPO0.motionTree.nodes = [⟨demoIn.stateStart, 0⟩] ∧
      demoPO0.motionTree.edges = [] := by
  refine ⟨C7_theorem.1 demoIn demoParams0 [qDemo] demoPO0 demo_plan0, ?_, ?_⟩
  · exact (C7_theorem.2 demoIn demoParams0 [qDemo] demoPO0 rfl demo_plan0).1
  · exact (C7_theorem.2 demoIn demoParams0 [qDemo] demoPO0 rfl demo_plan0).2

end SelfDriving
